import Mathlib

set_option maxHeartbeats 1600000

/-!
Verification of the Qualisys JSON loader (scene/qualisys_json_loader.py).

The rotation converters are embedded over the real numbers:
`qvec2rotmat` is the literal polynomial formula from the source, and
`rotmat2qvec` — which in the source calls `np.linalg.eigh` on the
symmetric 4x4 matrix `K` and post-processes the eigenvector of the
largest eigenvalue — is embedded relationally: `IsRotmat2qvecOutput R q`
holds iff `q` is obtainable as the reordered, sign-normalised unit
eigenvector of `Kmat R` for a maximal eigenvalue, which is exactly the
contract of `eigh` (normalised eigenvectors, `argmax` of eigenvalues)
followed by the source's reindexing `[3, 0, 1, 2]` and the flip
`if qvec[0] < 0: qvec *= -1`.
-/

namespace Qualisys

open Matrix

/-- Shallow embedding of `qvec2rotmat(qvec)`: the quaternion-to-rotation-matrix
formula, scalar-first convention `q = [w, x, y, z]`, transcribed entry by entry
from the source. -/
def qvec2rotmat (q : Fin 4 → ℝ) : Matrix (Fin 3) (Fin 3) ℝ :=
  !![1 - 2 * q 2 ^ 2 - 2 * q 3 ^ 2,
     2 * q 1 * q 2 - 2 * q 0 * q 3,
     2 * q 3 * q 1 + 2 * q 0 * q 2;
     2 * q 1 * q 2 + 2 * q 0 * q 3,
     1 - 2 * q 1 ^ 2 - 2 * q 3 ^ 2,
     2 * q 2 * q 3 - 2 * q 0 * q 1;
     2 * q 3 * q 1 - 2 * q 0 * q 2,
     2 * q 2 * q 3 + 2 * q 0 * q 1,
     1 - 2 * q 1 ^ 2 - 2 * q 2 ^ 2]

/-- Shallow embedding of the matrix `K` built inside `rotmat2qvec`.  The source
unpacks `R.flat` row-major as `Rxx, Ryx, Rzx, Rxy, Ryy, Rzy, Rxz, Ryz, Rzz`,
fills the lower triangle of `K`, and divides by 3; `np.linalg.eigh` reads only
the lower triangle, so the effective matrix is the symmetric one below. -/
def Kmat (R : Matrix (Fin 3) (Fin 3) ℝ) : Matrix (Fin 4) (Fin 4) ℝ :=
  ((1 / 3 : ℚ) : ℝ) •
    !![R 0 0 - R 1 1 - R 2 2, R 0 1 + R 1 0, R 0 2 + R 2 0, R 2 1 - R 1 2;
       R 0 1 + R 1 0, R 1 1 - R 0 0 - R 2 2, R 1 2 + R 2 1, R 0 2 - R 2 0;
       R 0 2 + R 2 0, R 1 2 + R 2 1, R 2 2 - R 0 0 - R 1 1, R 1 0 - R 0 1;
       R 2 1 - R 1 2, R 0 2 - R 2 0, R 1 0 - R 0 1, R 0 0 + R 1 1 + R 2 2]

/-- Unit 4-vector: sum of squares of the components is 1 (the normalisation
guaranteed for the eigenvector columns returned by `np.linalg.eigh`). -/
def unitVec4 (v : Fin 4 → ℝ) : Prop :=
  v 0 ^ 2 + v 1 ^ 2 + v 2 ^ 2 + v 3 ^ 2 = 1

/-- `mu` is an eigenvalue of the 4x4 matrix `A`. -/
def IsEigenvalue (A : Matrix (Fin 4) (Fin 4) ℝ) (mu : ℝ) : Prop :=
  ∃ w : Fin 4 → ℝ, w ≠ 0 ∧ A.mulVec w = mu • w

/-- The source's reindexing `eigvecs[[3, 0, 1, 2], argmax]`: move the stored
`(x, y, z, w)` eigenvector components to `(w, x, y, z)` output order. -/
def reorder (v : Fin 4 → ℝ) : Fin 4 → ℝ := ![v 3, v 0, v 1, v 2]

/-- Relational embedding of `rotmat2qvec(R)`: `q` is a possible return value
iff there is a normalised eigenvector `v` of `Kmat R` for a largest eigenvalue
`lam` (the contract of `np.linalg.eigh` plus `np.argmax(eigvals)`), and `q` is
`reorder v`, negated exactly when its leading component `v 3` is negative
(the source's `if qvec[0] < 0: qvec *= -1`). -/
def IsRotmat2qvecOutput (R : Matrix (Fin 3) (Fin 3) ℝ) (q : Fin 4 → ℝ) : Prop :=
  ∃ (v : Fin 4 → ℝ) (lam : ℝ),
    unitVec4 v ∧
    (Kmat R).mulVec v = lam • v ∧
    (∀ mu : ℝ, IsEigenvalue (Kmat R) mu → mu ≤ lam) ∧
    ((0 ≤ v 3 ∧ q = reorder v) ∨ (v 3 < 0 ∧ q = -reorder v))

/-- Negating the quaternion leaves every entry of `qvec2rotmat` unchanged:
all non-constant monomials have degree two in the components. -/
lemma qvec2rotmat_neg (q : Fin 4 → ℝ) : qvec2rotmat (-q) = qvec2rotmat q := by
  ext i j
  fin_cases i <;> fin_cases j <;>
    simp [qvec2rotmat]

/-- For a matrix with orthonormal columns and determinant one the adjugate is
the transpose; this packages the nine cofactor identities of a rotation
matrix. -/
lemma adjugate_eq_transpose (R : Matrix (Fin 3) (Fin 3) ℝ)
    (hR : Rᵀ * R = 1) (hdet : R.det = 1) : R.adjugate = Rᵀ := by
  have h2 : R * Rᵀ = 1 := Matrix.mul_eq_one_comm.mp hR
  calc R.adjugate = R.adjugate * (R * Rᵀ) := by rw [h2, Matrix.mul_one]
    _ = R.adjugate * R * Rᵀ := by rw [Matrix.mul_assoc]
    _ = (R.det • (1 : Matrix (Fin 3) (Fin 3) ℝ)) * Rᵀ := by rw [Matrix.adjugate_mul]
    _ = Rᵀ := by rw [hdet, one_smul, Matrix.one_mul]

/-- The matrix `K` built by `rotmat2qvec` is symmetric. -/
lemma Kmat_symm (R : Matrix (Fin 3) (Fin 3) ℝ) (i j : Fin 4) :
    Kmat R i j = Kmat R j i := by
  fin_cases i <;> fin_cases j <;> simp [Kmat]

/-- The matrix `K` built by `rotmat2qvec` has trace zero, for any input. -/
lemma Kmat_trace (R : Matrix (Fin 3) (Fin 3) ℝ) :
    Kmat R 0 0 + Kmat R 1 1 + Kmat R 2 2 + Kmat R 3 3 = 0 := by
  simp [Kmat]
  ring

/-- Key spectral identity: for a rotation matrix (orthonormal, determinant 1),
the matrix `K` of `rotmat2qvec` satisfies `K² = (2/3)·K + (1/3)·I`, so its
eigenvalues are among `{1, -1/3}`. -/
lemma Kmat_sq (R : Matrix (Fin 3) (Fin 3) ℝ)
    (hR : Rᵀ * R = 1) (hdet : R.det = 1) :
    Kmat R * Kmat R = (2/3 : ℝ) • Kmat R + (1/3 : ℝ) • 1 := by
  have h2 : R * Rᵀ = 1 := Matrix.mul_eq_one_comm.mp hR
  have hct : R.adjugate = Rᵀ := adjugate_eq_transpose R hR hdet
  rw [Matrix.adjugate_fin_three] at hct
  have c1 : R 1 1 * R 2 2 - R 1 2 * R 2 1 = R 0 0 := by
    have h := congrFun (congrFun hct 0) 0; simpa using h
  have c4 : -(R 0 1 * R 2 2) + R 0 2 * R 2 1 = R 1 0 := by
    have h := congrFun (congrFun hct 0) 1; simpa using h
  have c7 : R 0 1 * R 1 2 - R 0 2 * R 1 1 = R 2 0 := by
    have h := congrFun (congrFun hct 0) 2; simpa using h
  have c2 : -(R 1 0 * R 2 2) + R 1 2 * R 2 0 = R 0 1 := by
    have h := congrFun (congrFun hct 1) 0; simpa using h
  have c5 : R 0 0 * R 2 2 - R 0 2 * R 2 0 = R 1 1 := by
    have h := congrFun (congrFun hct 1) 1; simpa using h
  have c8 : -(R 0 0 * R 1 2) + R 0 2 * R 1 0 = R 2 1 := by
    have h := congrFun (congrFun hct 1) 2; simpa using h
  have c3 : R 1 0 * R 2 1 - R 1 1 * R 2 0 = R 0 2 := by
    have h := congrFun (congrFun hct 2) 0; simpa using h
  have c6 : -(R 0 0 * R 2 1) + R 0 1 * R 2 0 = R 1 2 := by
    have h := congrFun (congrFun hct 2) 1; simpa using h
  have c9 : R 0 0 * R 1 1 - R 0 1 * R 1 0 = R 2 2 := by
    have h := congrFun (congrFun hct 2) 2; simpa using h
  have hr0 : R 0 0 * R 0 0 + R 0 1 * R 0 1 + R 0 2 * R 0 2 = 1 := by
    have h := congrFun (congrFun h2 0) 0
    simpa [Matrix.mul_apply, Fin.sum_univ_three] using h
  have hr1 : R 1 0 * R 1 0 + R 1 1 * R 1 1 + R 1 2 * R 1 2 = 1 := by
    have h := congrFun (congrFun h2 1) 1
    simpa [Matrix.mul_apply, Fin.sum_univ_three] using h
  have hr2 : R 2 0 * R 2 0 + R 2 1 * R 2 1 + R 2 2 * R 2 2 = 1 := by
    have h := congrFun (congrFun h2 2) 2
    simpa [Matrix.mul_apply, Fin.sum_univ_three] using h
  ext i j
  fin_cases i <;> fin_cases j <;>
      simp [Kmat, Matrix.mul_apply, Fin.sum_univ_four, Matrix.one_apply] <;>
    first
      | linear_combination (1/9 : ℝ) * (hr0 + hr1 + hr2 + 2*c1 - 2*c5 - 2*c9)
      | linear_combination (1/9 : ℝ) * (hr0 + hr1 + hr2 - 2*c1 + 2*c5 - 2*c9)
      | linear_combination (1/9 : ℝ) * (hr0 + hr1 + hr2 - 2*c1 - 2*c5 + 2*c9)
      | linear_combination (1/9 : ℝ) * (hr0 + hr1 + hr2 + 2*c1 + 2*c5 + 2*c9)
      | linear_combination (2/9 : ℝ) * (c2 + c4)
      | linear_combination (2/9 : ℝ) * (c3 + c7)
      | linear_combination (2/9 : ℝ) * (c6 + c8)
      | linear_combination (2/9 : ℝ) * (c8 - c6)
      | linear_combination (2/9 : ℝ) * (c3 - c7)
      | linear_combination (2/9 : ℝ) * (c4 - c2)

/-- A sum of sixteen squares equal to zero forces every one of them to
vanish. -/
lemma sixteen_sq_zero {a00 a01 a02 a03 a10 a11 a12 a13
    a20 a21 a22 a23 a30 a31 a32 a33 : ℝ}
    (h : a00^2 + a01^2 + a02^2 + a03^2 + a10^2 + a11^2 + a12^2 + a13^2 +
      a20^2 + a21^2 + a22^2 + a23^2 + a30^2 + a31^2 + a32^2 + a33^2 = 0) :
    a00 = 0 ∧ a01 = 0 ∧ a02 = 0 ∧ a03 = 0 ∧ a10 = 0 ∧ a11 = 0 ∧ a12 = 0 ∧
      a13 = 0 ∧ a20 = 0 ∧ a21 = 0 ∧ a22 = 0 ∧ a23 = 0 ∧ a30 = 0 ∧ a31 = 0 ∧
      a32 = 0 ∧ a33 = 0 := by
  have key : ∀ y : ℝ, y^2 ≤ 0 → y = 0 := fun y hy =>
    pow_eq_zero_iff two_ne_zero |>.mp (le_antisymm hy (sq_nonneg y))
  refine ⟨key _ ?_, key _ ?_, key _ ?_, key _ ?_, key _ ?_, key _ ?_, key _ ?_,
    key _ ?_, key _ ?_, key _ ?_, key _ ?_, key _ ?_, key _ ?_, key _ ?_,
    key _ ?_, key _ ?_⟩ <;>
    linarith [sq_nonneg a00, sq_nonneg a01, sq_nonneg a02, sq_nonneg a03,
      sq_nonneg a10, sq_nonneg a11, sq_nonneg a12, sq_nonneg a13,
      sq_nonneg a20, sq_nonneg a21, sq_nonneg a22, sq_nonneg a23,
      sq_nonneg a30, sq_nonneg a31, sq_nonneg a32, sq_nonneg a33]

/-- Every eigenvalue of the matrix `K` of `rotmat2qvec` is `1` or `-1/3`
when the input is a rotation matrix. -/
lemma eigenvalue_cases (R : Matrix (Fin 3) (Fin 3) ℝ)
    (hR : Rᵀ * R = 1) (hdet : R.det = 1) (mu : ℝ)
    (h : IsEigenvalue (Kmat R) mu) : mu = 1 ∨ mu = -(1/3 : ℝ) := by
  obtain ⟨w, hw, hmw⟩ := h
  have hK2 := Kmat_sq R hR hdet
  have h1 : (Kmat R * Kmat R).mulVec w = (mu * mu) • w := by
    rw [← Matrix.mulVec_mulVec, hmw, Matrix.mulVec_smul, hmw, smul_smul]
  rw [hK2] at h1
  have h2 : ((2/3 : ℝ) • Kmat R + (1/3 : ℝ) • 1).mulVec w
      = ((2/3 : ℝ) * mu + 1/3) • w := by
    rw [Matrix.add_mulVec, Matrix.smul_mulVec_assoc, hmw,
      Matrix.smul_mulVec_assoc, Matrix.one_mulVec]
    funext i
    simp only [Pi.add_apply, Pi.smul_apply, smul_eq_mul]
    ring
  rw [h2] at h1
  obtain ⟨i, hi⟩ := Function.ne_iff.mp hw
  simp only [Pi.zero_apply] at hi
  have h3 := congrFun h1 i
  simp only [Pi.smul_apply, smul_eq_mul] at h3
  have h4 : (mu - 1) * (mu + 1/3) * w i = 0 := by linear_combination -h3
  rcases mul_eq_zero.mp h4 with h5 | h5
  · rcases mul_eq_zero.mp h5 with h6 | h6
    · left; linarith
    · right; linarith
  · exact absurd h5 hi

/-- For a rotation matrix `R`, `1` is an eigenvalue of the matrix `K` of
`rotmat2qvec` (hence the largest, by `eigenvalue_cases`): any nonzero column
of `K + (1/3)·I` is an eigenvector, and the trace forces one to be nonzero. -/
lemma eigenvalue_one (R : Matrix (Fin 3) (Fin 3) ℝ)
    (hR : Rᵀ * R = 1) (hdet : R.det = 1) : IsEigenvalue (Kmat R) 1 := by
  have hK2 := Kmat_sq R hR hdet
  have hKM : Kmat R * (Kmat R + (1/3 : ℝ) • 1) = Kmat R + (1/3 : ℝ) • 1 := by
    rw [Matrix.mul_add, hK2, Matrix.mul_smul, Matrix.mul_one]
    ext i j
    simp only [Matrix.add_apply, Matrix.smul_apply, Matrix.one_apply,
      smul_eq_mul]
    ring
  have hcol : ∀ j : Fin 4,
      (Kmat R).mulVec (fun i => (Kmat R + (1/3 : ℝ) • 1) i j)
        = (1 : ℝ) • (fun i => (Kmat R + (1/3 : ℝ) • 1) i j) := by
    intro j
    funext i
    have h := congrFun (congrFun hKM i) j
    simpa [Matrix.mul_apply, Matrix.mulVec, Matrix.dotProduct] using h
  by_contra hno
  have hz : ∀ j : Fin 4, (fun i => (Kmat R + (1/3 : ℝ) • 1) i j) = 0 := by
    intro j
    by_contra hj
    exact hno ⟨_, hj, hcol j⟩
  have hd : ∀ j : Fin 4, Kmat R j j + (1/3 : ℝ) = 0 := by
    intro j
    have h := congrFun (hz j) j
    simpa [Matrix.add_apply, Matrix.smul_apply, Matrix.one_apply] using h
  have htr := Kmat_trace R
  have h0 := hd 0
  have h1 := hd 1
  have h2 := hd 2
  have h3 := hd 3
  linarith

/-- Central reconstruction lemma: a unit eigenvector `v` of `Kmat R` with
eigenvalue 1 satisfies `K + (1/3)·I = (4/3)·v·vᵀ`, so all pairwise products of
its components are read off from `R`, and the quaternion formula rebuilds `R`
exactly. -/
lemma eigvec_reconstruct (R : Matrix (Fin 3) (Fin 3) ℝ)
    (hR : Rᵀ * R = 1) (hdet : R.det = 1) (v : Fin 4 → ℝ)
    (hunit : unitVec4 v) (hv : (Kmat R).mulVec v = v) :
    qvec2rotmat (reorder v) = R := by
  have hK2 := Kmat_sq R hR hdet
  have hkd : ∀ a : Fin 4,
      Kmat R a 0 * Kmat R 0 a + Kmat R a 1 * Kmat R 1 a +
        Kmat R a 2 * Kmat R 2 a + Kmat R a 3 * Kmat R 3 a
        = (2/3 : ℝ) * Kmat R a a + 1/3 := by
    intro a
    have h := congrFun (congrFun hK2 a) a
    simp [Matrix.mul_apply, Fin.sum_univ_four, Matrix.one_apply] at h
    linear_combination h
  have hvv : ∀ a : Fin 4,
      Kmat R a 0 * v 0 + Kmat R a 1 * v 1 + Kmat R a 2 * v 2 +
        Kmat R a 3 * v 3 = v a := by
    intro a
    have h := congrFun hv a
    simpa [Matrix.mulVec, Matrix.dotProduct, Fin.sum_univ_four] using h
  have hs := Kmat_symm R
  have htr := Kmat_trace R
  have hu : v 0^2 + v 1^2 + v 2^2 + v 3^2 = 1 := hunit
  have s0 : (Kmat R 0 0 + 1/3 - 4/3*(v 0*v 0))^2 + (Kmat R 0 1 - 4/3*(v 0*v 1))^2
        + (Kmat R 0 2 - 4/3*(v 0*v 2))^2 + (Kmat R 0 3 - 4/3*(v 0*v 3))^2
      = 4/3*Kmat R 0 0 + 4/9 - 16/9*v 0^2 := by
    linear_combination hkd 0 + Kmat R 0 1 * hs 0 1 + Kmat R 0 2 * hs 0 2 +
      Kmat R 0 3 * hs 0 3 - (8/3 : ℝ)*v 0*hvv 0 + (16/9 : ℝ)*v 0^2*hu
  have s1 : (Kmat R 1 0 - 4/3*(v 1*v 0))^2 + (Kmat R 1 1 + 1/3 - 4/3*(v 1*v 1))^2
        + (Kmat R 1 2 - 4/3*(v 1*v 2))^2 + (Kmat R 1 3 - 4/3*(v 1*v 3))^2
      = 4/3*Kmat R 1 1 + 4/9 - 16/9*v 1^2 := by
    linear_combination hkd 1 + Kmat R 1 0 * hs 1 0 + Kmat R 1 2 * hs 1 2 +
      Kmat R 1 3 * hs 1 3 - (8/3 : ℝ)*v 1*hvv 1 + (16/9 : ℝ)*v 1^2*hu
  have s2 : (Kmat R 2 0 - 4/3*(v 2*v 0))^2 + (Kmat R 2 1 - 4/3*(v 2*v 1))^2
        + (Kmat R 2 2 + 1/3 - 4/3*(v 2*v 2))^2 + (Kmat R 2 3 - 4/3*(v 2*v 3))^2
      = 4/3*Kmat R 2 2 + 4/9 - 16/9*v 2^2 := by
    linear_combination hkd 2 + Kmat R 2 0 * hs 2 0 + Kmat R 2 1 * hs 2 1 +
      Kmat R 2 3 * hs 2 3 - (8/3 : ℝ)*v 2*hvv 2 + (16/9 : ℝ)*v 2^2*hu
  have s3 : (Kmat R 3 0 - 4/3*(v 3*v 0))^2 + (Kmat R 3 1 - 4/3*(v 3*v 1))^2
        + (Kmat R 3 2 - 4/3*(v 3*v 2))^2 + (Kmat R 3 3 + 1/3 - 4/3*(v 3*v 3))^2
      = 4/3*Kmat R 3 3 + 4/9 - 16/9*v 3^2 := by
    linear_combination hkd 3 + Kmat R 3 0 * hs 3 0 + Kmat R 3 1 * hs 3 1 +
      Kmat R 3 2 * hs 3 2 - (8/3 : ℝ)*v 3*hvv 3 + (16/9 : ℝ)*v 3^2*hu
  have htot : (Kmat R 0 0 + 1/3 - 4/3*(v 0*v 0))^2 + (Kmat R 0 1 - 4/3*(v 0*v 1))^2
        + (Kmat R 0 2 - 4/3*(v 0*v 2))^2 + (Kmat R 0 3 - 4/3*(v 0*v 3))^2
        + (Kmat R 1 0 - 4/3*(v 1*v 0))^2 + (Kmat R 1 1 + 1/3 - 4/3*(v 1*v 1))^2
        + (Kmat R 1 2 - 4/3*(v 1*v 2))^2 + (Kmat R 1 3 - 4/3*(v 1*v 3))^2
        + (Kmat R 2 0 - 4/3*(v 2*v 0))^2 + (Kmat R 2 1 - 4/3*(v 2*v 1))^2
        + (Kmat R 2 2 + 1/3 - 4/3*(v 2*v 2))^2 + (Kmat R 2 3 - 4/3*(v 2*v 3))^2
        + (Kmat R 3 0 - 4/3*(v 3*v 0))^2 + (Kmat R 3 1 - 4/3*(v 3*v 1))^2
        + (Kmat R 3 2 - 4/3*(v 3*v 2))^2 + (Kmat R 3 3 + 1/3 - 4/3*(v 3*v 3))^2
      = 0 := by
    linear_combination s0 + s1 + s2 + s3 + (4/3 : ℝ)*htr - (16/9 : ℝ)*hu
  obtain ⟨h00, h01, h02, h03, h10, h11, h12, h13,
    h20, h21, h22, h23, h30, h31, h32, h33⟩ := sixteen_sq_zero htot
  clear h10 h20 h21 h30 h31 h32 h33
  simp [Kmat] at h00 h01 h02 h03 h11 h12 h13 h22 h23
  ext i j
  fin_cases i <;> fin_cases j
  · simp [qvec2rotmat, reorder]
    linear_combination (3/2 : ℝ) * (h11 + h22)
  · simp [qvec2rotmat, reorder]
    linear_combination (3/2 : ℝ) * (h23 - h01)
  · simp [qvec2rotmat, reorder]
    linear_combination (-3/2 : ℝ) * (h02 + h13)
  · simp [qvec2rotmat, reorder]
    linear_combination (-3/2 : ℝ) * (h01 + h23)
  · simp [qvec2rotmat, reorder]
    linear_combination (3/2 : ℝ) * (h00 + h22)
  · simp [qvec2rotmat, reorder]
    linear_combination (3/2 : ℝ) * (h03 - h12)
  · simp [qvec2rotmat, reorder]
    linear_combination (3/2 : ℝ) * (h13 - h02)
  · simp [qvec2rotmat, reorder]
    linear_combination (-3/2 : ℝ) * (h12 + h03)
  · simp [qvec2rotmat, reorder]
    linear_combination (3/2 : ℝ) * (h00 + h11)

/-- On a unit quaternion, `qvec2rotmat` produces an orthonormal matrix. -/
lemma qvec2rotmat_orthonormal (q : Fin 4 → ℝ) (hq : unitVec4 q) :
    (qvec2rotmat q)ᵀ * qvec2rotmat q = 1 := by
  have hu : q 0^2 + q 1^2 + q 2^2 + q 3^2 = 1 := hq
  ext i j
  rw [Matrix.mul_apply]
  simp only [Matrix.transpose_apply, Fin.sum_univ_three]
  fin_cases i <;> fin_cases j <;>
      simp [qvec2rotmat, Matrix.one_apply] <;>
    first
      | linear_combination (4*(q 2^2 + q 3^2)) * hu
      | linear_combination (4*(q 1^2 + q 3^2)) * hu
      | linear_combination (4*(q 1^2 + q 2^2)) * hu
      | linear_combination (-(4*q 1*q 2)) * hu
      | linear_combination (4*q 1*q 2) * hu
      | linear_combination (-(4*q 1*q 3)) * hu
      | linear_combination (4*q 1*q 3) * hu
      | linear_combination (-(4*q 3*q 1)) * hu
      | linear_combination (-(4*q 2*q 3)) * hu

/-- On a unit quaternion, `qvec2rotmat` produces a matrix of determinant 1. -/
lemma qvec2rotmat_det (q : Fin 4 → ℝ) (hq : unitVec4 q) :
    (qvec2rotmat q).det = 1 := by
  have hu : q 0^2 + q 1^2 + q 2^2 + q 3^2 = 1 := hq
  rw [Matrix.det_fin_three]
  simp [qvec2rotmat]
  linear_combination (4*(q 1^2 + q 2^2 + q 3^2)) * hu

/-- If all pairwise component products of two 4-vectors agree and `p` has a
nonzero component, then `p = q` or `p = -q`. -/
lemma eq_or_neg_of_products (p q : Fin 4 → ℝ) (k : Fin 4) (hk : p k ≠ 0)
    (hprod : ∀ a b : Fin 4, p a * p b = q a * q b) : p = q ∨ p = -q := by
  have h0 : (p k - q k) * (p k + q k) = 0 := by linear_combination hprod k k
  rcases mul_eq_zero.mp h0 with h | h
  · left
    funext i
    have h2 : (p i - q i) * p k = 0 := by linear_combination hprod i k - q i * h
    rcases mul_eq_zero.mp h2 with h3 | h3
    · linarith
    · exact absurd h3 hk
  · right
    funext i
    have h2 : (p i + q i) * p k = 0 := by linear_combination hprod i k + q i * h
    rcases mul_eq_zero.mp h2 with h3 | h3
    · simp only [Pi.neg_apply]
      linarith
    · exact absurd h3 hk

/-- Two unit quaternions that map to the same rotation matrix agree up to
global sign: all their pairwise component products can be read back from the
matrix entries. -/
lemma quat_eq_of_rotmat_eq (p q : Fin 4 → ℝ) (hp : unitVec4 p)
    (hq : unitVec4 q) (h : qvec2rotmat p = qvec2rotmat q) :
    p = q ∨ p = -q := by
  have hp' : p 0^2 + p 1^2 + p 2^2 + p 3^2 = 1 := hp
  have hq' : q 0^2 + q 1^2 + q 2^2 + q 3^2 = 1 := hq
  have e : ∀ i j, qvec2rotmat p i j = qvec2rotmat q i j :=
    fun i j => congrFun (congrFun h i) j
  have e00 := e 0 0
  have e01 := e 0 1
  have e02 := e 0 2
  have e10 := e 1 0
  have e11 := e 1 1
  have e12 := e 1 2
  have e20 := e 2 0
  have e21 := e 2 1
  have e22 := e 2 2
  simp [qvec2rotmat] at e00 e01 e02 e10 e11 e12 e20 e21 e22
  have h00 : p 0 * p 0 = q 0 * q 0 := by
    linear_combination hp' - hq' + (1/4 : ℝ)*(e00 + e11 + e22)
  have h01 : p 0 * p 1 = q 0 * q 1 := by
    linear_combination (1/4 : ℝ)*(e21 - e12)
  have h02 : p 0 * p 2 = q 0 * q 2 := by
    linear_combination (1/4 : ℝ)*(e02 - e20)
  have h03 : p 0 * p 3 = q 0 * q 3 := by
    linear_combination (1/4 : ℝ)*(e10 - e01)
  have h11 : p 1 * p 1 = q 1 * q 1 := by
    linear_combination (1/4 : ℝ)*(e00 - e11 - e22)
  have h12 : p 1 * p 2 = q 1 * q 2 := by
    linear_combination (1/4 : ℝ)*(e01 + e10)
  have h13 : p 1 * p 3 = q 1 * q 3 := by
    linear_combination (1/4 : ℝ)*(e02 + e20)
  have h22 : p 2 * p 2 = q 2 * q 2 := by
    linear_combination (1/4 : ℝ)*(e11 - e00 - e22)
  have h23 : p 2 * p 3 = q 2 * q 3 := by
    linear_combination (1/4 : ℝ)*(e12 + e21)
  have h33 : p 3 * p 3 = q 3 * q 3 := by
    linear_combination (1/4 : ℝ)*(e22 - e00 - e11)
  have hprod : ∀ a b : Fin 4, p a * p b = q a * q b := by
    intro a b
    fin_cases a <;> fin_cases b <;>
      first
        | exact h00
        | exact h01
        | exact h02
        | exact h03
        | exact h11
        | exact h12
        | exact h13
        | exact h22
        | exact h23
        | exact h33
        | exact (show p 1 * p 0 = q 1 * q 0 by linear_combination h01)
        | exact (show p 2 * p 0 = q 2 * q 0 by linear_combination h02)
        | exact (show p 3 * p 0 = q 3 * q 0 by linear_combination h03)
        | exact (show p 2 * p 1 = q 2 * q 1 by linear_combination h12)
        | exact (show p 3 * p 1 = q 3 * q 1 by linear_combination h13)
        | exact (show p 3 * p 2 = q 3 * q 2 by linear_combination h23)
  have hne : p 0 ≠ 0 ∨ p 1 ≠ 0 ∨ p 2 ≠ 0 ∨ p 3 ≠ 0 := by
    by_contra hcon
    push_neg at hcon
    obtain ⟨a0, a1, a2, a3⟩ := hcon
    rw [a0, a1, a2, a3] at hp'
    norm_num at hp'
  rcases hne with hk | hk | hk | hk
  · exact eq_or_neg_of_products p q 0 hk hprod
  · exact eq_or_neg_of_products p q 1 hk hprod
  · exact eq_or_neg_of_products p q 2 hk hprod
  · exact eq_or_neg_of_products p q 3 hk hprod

/-- Every value the relational `rotmat2qvec` can return is a unit vector with
nonnegative leading component (no hypotheses on `R` are needed: these follow
from the eigenvector normalisation and the sign flip alone). -/
lemma output_unit_nonneg (R : Matrix (Fin 3) (Fin 3) ℝ) (q : Fin 4 → ℝ)
    (hout : IsRotmat2qvecOutput R q) : unitVec4 q ∧ 0 ≤ q 0 := by
  obtain ⟨v, lam, hu, _, _, hsign⟩ := hout
  have hu' : v 0^2 + v 1^2 + v 2^2 + v 3^2 = 1 := hu
  rcases hsign with ⟨h3, hq⟩ | ⟨h3, hq⟩ <;> subst hq <;>
    constructor <;>
    simp [unitVec4, reorder] <;>
    linarith

/-- First round-trip direction: on any rotation matrix `R`, any possible
return of `rotmat2qvec` maps back to `R` exactly under `qvec2rotmat`. -/
lemma rotmat2qvec_left_inverse (R : Matrix (Fin 3) (Fin 3) ℝ)
    (q : Fin 4 → ℝ) (hR : Rᵀ * R = 1) (hdet : R.det = 1)
    (hout : IsRotmat2qvecOutput R q) : qvec2rotmat q = R := by
  obtain ⟨v, lam, hu, heig, hmax, hsign⟩ := hout
  have hvne : v ≠ 0 := by
    intro h0
    rw [h0] at hu
    norm_num [unitVec4] at hu
  have h1 : IsEigenvalue (Kmat R) 1 := eigenvalue_one R hR hdet
  have hup : 1 ≤ lam := hmax 1 h1
  have hlam : lam = 1 := by
    rcases eigenvalue_cases R hR hdet lam ⟨v, hvne, heig⟩ with h | h
    · exact h
    · rw [h] at hup
      norm_num at hup
  rw [hlam, one_smul] at heig
  have hrec := eigvec_reconstruct R hR hdet v hu heig
  rcases hsign with ⟨_, hq⟩ | ⟨_, hq⟩
  · rw [hq]
    exact hrec
  · rw [hq, qvec2rotmat_neg]
    exact hrec

/-- Second round-trip direction: starting from a unit quaternion `q`, any
possible return of `rotmat2qvec (qvec2rotmat q)` is `q` up to global sign,
and is exactly `q` whenever `q 0 > 0`. -/
lemma qvec2rotmat_left_inverse (q q' : Fin 4 → ℝ) (hq : unitVec4 q)
    (hout : IsRotmat2qvecOutput (qvec2rotmat q) q') :
    (q' = q ∨ q' = -q) ∧ (0 < q 0 → q' = q) := by
  have hR := qvec2rotmat_orthonormal q hq
  have hdet := qvec2rotmat_det q hq
  have heq : qvec2rotmat q' = qvec2rotmat q :=
    rotmat2qvec_left_inverse (qvec2rotmat q) q' hR hdet hout
  obtain ⟨hu', hnn⟩ := output_unit_nonneg _ _ hout
  have hd := quat_eq_of_rotmat_eq q' q hu' hq heq
  refine ⟨hd, fun hpos => ?_⟩
  rcases hd with h | h
  · exact h
  · exfalso
    rw [h] at hnn
    simp only [Pi.neg_apply] at hnn
    linarith

/-!
JSON-loader embedding.

A loaded document is modelled by `JVal` (the result of a successful
`json.load`); an input file is an `Option JVal`, with `none` standing for a
file whose contents fail JSON decoding.  The readers return `Except`:
Python's exceptions abort the whole call, so no partial dictionary is ever
returned.  `read_extrinsics_json` is parameterised by the `rotmat2qvec`
function (`rq`), whose possible behaviours are characterised by
`IsRotmat2qvecOutput`.  Numeric leaf values are carried verbatim as `JVal`
where the source stores them without arithmetic (`width`, `height`, `params`,
`tvec`); the nine rotation entries are forced to numbers (`asNum`), matching
the `TypeError` that numpy arithmetic inside `rotmat2qvec` raises on
non-numeric entries after all key lookups succeeded.
-/

/-- JSON values as produced by a successful `json.load`.  Objects are
association lists; keys are unique after Python dict construction. -/
inductive JVal where
  | num (x : ℝ)
  | str (s : String)
  | bool (b : Bool)
  | null
  | arr (elems : List JVal)
  | obj (fields : List (String × JVal))

/-- The Python exceptions the loader can surface. -/
inductive LoaderError where
  /-- `json.JSONDecodeError`: the file contents are not valid JSON. -/
  | malformedDocument
  /-- The `ValueError` raised for an unsupported camera model type. -/
  | unsupportedCameraModel (m : String)
  /-- `KeyError`: a required key is absent from a dict. -/
  | fieldMissing (k : String)
  /-- `TypeError`: a value does not have the JSON shape the code indexes
  into or computes with. -/
  | typeError
deriving DecidableEq

/-- The `CameraModel` namedtuple. -/
structure CameraModel where
  model_id : ℕ
  model_name : String
  num_params : ℕ
deriving DecidableEq

/-- The `Camera` namedtuple.  `width`, `height` and the parameter vector are
stored exactly as read from the document, without numeric conversion, as in
the source. -/
structure Camera where
  id : ℕ
  model : ℕ
  width : JVal
  height : JVal
  params : List JVal

/-- The `Image` (pose record) namedtuple.  `qvec` comes out of `rotmat2qvec`
and is numeric; `tvec` entries are stored exactly as read. -/
structure Image where
  id : ℕ
  qvec : Fin 4 → ℝ
  tvec : Fin 3 → JVal
  camera_id : ℕ
  name : String
  xys : List (ℝ × ℝ)
  point3D_ids : List ℝ

/-- The `CAMERA_MODELS` table, in source order. -/
def CAMERA_MODELS : List CameraModel :=
  [⟨0, "SIMPLE_PINHOLE", 3⟩, ⟨1, "PINHOLE", 4⟩, ⟨2, "SIMPLE_RADIAL", 4⟩,
   ⟨3, "RADIAL", 5⟩, ⟨4, "OPENCV", 8⟩, ⟨5, "OPENCV_FISHEYE", 8⟩,
   ⟨6, "FULL_OPENCV", 12⟩, ⟨7, "FOV", 5⟩, ⟨8, "SIMPLE_RADIAL_FISHEYE", 4⟩,
   ⟨9, "RADIAL_FISHEYE", 5⟩, ⟨10, "THIN_PRISM_FISHEYE", 12⟩]

/-- The `CAMERA_MODEL_NAMES` dictionary: lookup by model name.  Model names
in `CAMERA_MODELS` are distinct, so dict and association-list lookup agree. -/
def CAMERA_MODEL_NAMES (name : String) : Option CameraModel :=
  CAMERA_MODELS.find? (fun m => m.model_name == name)

/-- Python `value[k]` on a loaded JSON value: returns the field of a dict,
raises `KeyError` when the key is absent, `TypeError` when the value is not
a dict. -/
def getField : JVal → String → Except LoaderError JVal
  | .obj fields, k =>
    match fields.lookup k with
    | some v => .ok v
    | none => .error (.fieldMissing k)
  | _, _ => .error .typeError

/-- Python `value[k1][k2]`. -/
def getField2 (v : JVal) (k1 k2 : String) : Except LoaderError JVal := do
  let o ← getField v k1
  getField o k2

/-- Force a JSON leaf to a number; numpy arithmetic on anything else raises
`TypeError`. -/
def asNum : JVal → Except LoaderError ℝ
  | .num x => .ok x
  | _ => .error .typeError

/-- Body of the `read_intrinsics_json` loop for one camera element `cam` at
1-based position `idx`: read `width`/`height` from the `FovVideo` block, then
the model-specific parameter list — eight `Intrinsic` values in fixed order
for `OPENCV`, four for `PINHOLE`, and the empty placeholder for every other
model type. -/
def readIntrinsicsCam (camera_model_type : String) (model_id : ℕ) (idx : ℕ)
    (cam : JVal) : Except LoaderError Camera := do
  let width ← getField2 cam "FovVideo" "Right"
  let height ← getField2 cam "FovVideo" "Bottom"
  if camera_model_type = "OPENCV" then
    let p1 ← getField2 cam "Intrinsic" "FocalLengthU"
    let p2 ← getField2 cam "Intrinsic" "FocalLengthV"
    let p3 ← getField2 cam "Intrinsic" "CenterPointU"
    let p4 ← getField2 cam "Intrinsic" "CenterPointV"
    let p5 ← getField2 cam "Intrinsic" "RadialDistortion1"
    let p6 ← getField2 cam "Intrinsic" "RadialDistortion2"
    let p7 ← getField2 cam "Intrinsic" "TangentalDistortion1"
    let p8 ← getField2 cam "Intrinsic" "TangentalDistortion2"
    pure ⟨idx, model_id, width, height, [p1, p2, p3, p4, p5, p6, p7, p8]⟩
  else if camera_model_type = "PINHOLE" then
    let p1 ← getField2 cam "Intrinsic" "FocalLengthU"
    let p2 ← getField2 cam "Intrinsic" "FocalLengthV"
    let p3 ← getField2 cam "Intrinsic" "CenterPointU"
    let p4 ← getField2 cam "Intrinsic" "CenterPointV"
    pure ⟨idx, model_id, width, height, [p1, p2, p3, p4]⟩
  else
    pure ⟨idx, model_id, width, height, []⟩

/-- The `enumerate(data["Cameras"], start=1)` loop shared by both readers:
apply `f` to each element with its 1-based index, building the dictionary as
an association list in insertion order; the first exception aborts
everything. -/
def enumerateFrom {α : Type} (f : ℕ → JVal → Except LoaderError α) :
    ℕ → List JVal → Except LoaderError (List (ℕ × α))
  | _, [] => pure []
  | idx, cam :: rest => do
    let a ← f idx cam
    let tail ← enumerateFrom f (idx + 1) rest
    pure ((idx, a) :: tail)

/-- Shallow embedding of `read_intrinsics_json(path, camera_model_type)`.
Order matches the source: `json.load` first (a `none` file fails here with
the decode error), then the registry membership check (before any document
field is touched), then the per-camera loop. -/
def read_intrinsics_json (file : Option JVal) (camera_model_type : String) :
    Except LoaderError (List (ℕ × Camera)) :=
  match file with
  | none => .error .malformedDocument
  | some data =>
    match CAMERA_MODEL_NAMES camera_model_type with
    | none => .error (.unsupportedCameraModel camera_model_type)
    | some cm => do
      let cams ← getField data "Cameras"
      match cams with
      | .arr elems => enumerateFrom (readIntrinsicsCam camera_model_type cm.model_id) 1 elems
      | _ => .error .typeError

/-- `read_intrinsics_json` called without the `camera_model_type` argument:
the source declares the default value `"OPENCV"`. -/
def read_intrinsics_json_default (file : Option JVal) :
    Except LoaderError (List (ℕ × Camera)) :=
  read_intrinsics_json file "OPENCV"

/-- Body of the `read_extrinsics_json` loop for one camera element: the
twelve `Transform` lookups happen first, in source evaluation order
(`x`, `y`, `z`, then `r11` … `r33` row-major); the nine rotation entries are
then forced to numbers (numpy arithmetic inside `rotmat2qvec` raises
`TypeError` otherwise), the rotation matrix is converted by `rq` (the
`rotmat2qvec` function), and the placeholder fields are filled in. -/
def readExtrinsicsCam (rq : Matrix (Fin 3) (Fin 3) ℝ → (Fin 4 → ℝ))
    (idx : ℕ) (cam : JVal) : Except LoaderError Image := do
  let tx ← getField2 cam "Transform" "x"
  let ty ← getField2 cam "Transform" "y"
  let tz ← getField2 cam "Transform" "z"
  let w11 ← getField2 cam "Transform" "r11"
  let w12 ← getField2 cam "Transform" "r12"
  let w13 ← getField2 cam "Transform" "r13"
  let w21 ← getField2 cam "Transform" "r21"
  let w22 ← getField2 cam "Transform" "r22"
  let w23 ← getField2 cam "Transform" "r23"
  let w31 ← getField2 cam "Transform" "r31"
  let w32 ← getField2 cam "Transform" "r32"
  let w33 ← getField2 cam "Transform" "r33"
  let r11 ← asNum w11
  let r12 ← asNum w12
  let r13 ← asNum w13
  let r21 ← asNum w21
  let r22 ← asNum w22
  let r23 ← asNum w23
  let r31 ← asNum w31
  let r32 ← asNum w32
  let r33 ← asNum w33
  pure ⟨idx, rq !![r11, r12, r13; r21, r22, r23; r31, r32, r33],
    ![tx, ty, tz], idx, "Camera_" ++ toString idx, [], []⟩

/-- Shallow embedding of `read_extrinsics_json(path)`, parameterised by the
`rotmat2qvec` function `rq`. -/
def read_extrinsics_json (rq : Matrix (Fin 3) (Fin 3) ℝ → (Fin 4 → ℝ))
    (file : Option JVal) : Except LoaderError (List (ℕ × Image)) :=
  match file with
  | none => .error .malformedDocument
  | some data => do
    let cams ← getField data "Cameras"
    match cams with
    | .arr elems => enumerateFrom (readExtrinsicsCam rq) 1 elems
    | _ => .error .typeError

/-- Inversion of `Except` bind. -/
lemma except_bind_ok {α β : Type} {x : Except LoaderError α}
    {f : α → Except LoaderError β} {b : β} :
    x >>= f = .ok b ↔ ∃ a, x = .ok a ∧ f a = .ok b := by
  cases x <;> simp [Except.bind, Bind.bind]

lemma except_ok_inj {α : Type} {a b : α} :
    (Except.ok a : Except LoaderError α) = .ok b ↔ a = b := by
  simp

lemma enumerateFrom_ok {α : Type} (f : ℕ → JVal → Except LoaderError α) :
    ∀ (elems : List JVal) (idx : ℕ) (l : List (ℕ × α)),
      enumerateFrom f idx elems = .ok l →
      l.map Prod.fst = List.range' idx elems.length ∧
      ∀ p ∈ l, idx ≤ p.1 ∧
        ∃ cam, elems[p.1 - idx]? = some cam ∧ f p.1 cam = .ok p.2
  | [], idx, l, h => by
      simp [enumerateFrom, pure, Except.pure] at h
      subst h
      simp
  | cam :: rest, idx, l, h => by
      simp only [enumerateFrom, except_bind_ok, pure, Except.pure] at h
      obtain ⟨a, ha, tail, htail, hl⟩ := h
      rw [show Except.ok ((idx, a) :: tail) = Except.ok l ↔ (idx, a) :: tail = l by simp] at hl
      subst hl
      obtain ⟨ih1, ih2⟩ := enumerateFrom_ok f rest (idx + 1) tail htail
      constructor
      · simp [List.range'_succ, ih1]
      · intro p hp
        rcases List.mem_cons.mp hp with hp | hp
        · subst hp
          exact ⟨le_refl _, cam, by simp, ha⟩
        · obtain ⟨hle, cam', hc', hf'⟩ := ih2 p hp
          refine ⟨by omega, cam', ?_, hf'⟩
          have : p.1 - idx = (p.1 - (idx + 1)) + 1 := by omega
          rw [this]
          simpa using hc'

lemma enumerateFrom_err {α : Type} (f : ℕ → JVal → Except LoaderError α) :
    ∀ (front : List JVal) (cam : JVal) (rest : List JVal) (idx : ℕ)
      (e : LoaderError),
      (∀ j (h : j < front.length), ∃ a, f (idx + j) front[j] = .ok a) →
      f (idx + front.length) cam = .error e →
      enumerateFrom f idx (front ++ cam :: rest) = .error e
  | [], cam, rest, idx, e, _, herr => by
      simp only [List.nil_append, enumerateFrom]
      rw [show idx + List.length [] = idx by simp] at herr
      rw [herr]
      rfl
  | c0 :: front, cam, rest, idx, e, hok, herr => by
      obtain ⟨a0, ha0⟩ := hok 0 (by simp)
      simp only [List.getElem_cons_zero, Nat.add_zero] at ha0
      simp only [List.cons_append, enumerateFrom, ha0]
      have ih := enumerateFrom_err f front cam rest (idx + 1) e
        (fun j hj => by
          obtain ⟨a, ha⟩ := hok (j + 1) (by simp; omega)
          exact ⟨a, by simpa [Nat.add_assoc, Nat.add_comm 1 j] using ha⟩)
        (by simpa [Nat.add_assoc, Nat.add_comm 1 front.length] using herr)
      simp [except_bind_ok, ih, Except.bind, Bind.bind]

lemma enumerateFrom_all_ok {α : Type} (f : ℕ → JVal → Except LoaderError α) :
    ∀ (elems : List JVal) (idx : ℕ),
      (∀ j (h : j < elems.length), ∃ a, f (idx + j) elems[j] = .ok a) →
      ∃ l, enumerateFrom f idx elems = .ok l
  | [], idx, _ => ⟨[], rfl⟩
  | cam :: rest, idx, hok => by
      obtain ⟨a0, ha0⟩ := hok 0 (by simp)
      simp only [List.getElem_cons_zero, Nat.add_zero] at ha0
      obtain ⟨tail, htail⟩ := enumerateFrom_all_ok f rest (idx + 1)
        (fun j hj => by
          obtain ⟨a, ha⟩ := hok (j + 1) (by simp; omega)
          exact ⟨a, by simpa [Nat.add_assoc, Nat.add_comm 1 j] using ha⟩)
      exact ⟨(idx, a0) :: tail, by simp [enumerateFrom, ha0, htail, Except.bind, Bind.bind]; rfl⟩

lemma readIntrinsicsCam_opencv_inv {mid idx : ℕ} {cam : JVal} {c : Camera}
    (h : readIntrinsicsCam "OPENCV" mid idx cam = .ok c) :
    ∃ w hgt p1 p2 p3 p4 p5 p6 p7 p8,
      getField2 cam "FovVideo" "Right" = .ok w ∧
      getField2 cam "FovVideo" "Bottom" = .ok hgt ∧
      getField2 cam "Intrinsic" "FocalLengthU" = .ok p1 ∧
      getField2 cam "Intrinsic" "FocalLengthV" = .ok p2 ∧
      getField2 cam "Intrinsic" "CenterPointU" = .ok p3 ∧
      getField2 cam "Intrinsic" "CenterPointV" = .ok p4 ∧
      getField2 cam "Intrinsic" "RadialDistortion1" = .ok p5 ∧
      getField2 cam "Intrinsic" "RadialDistortion2" = .ok p6 ∧
      getField2 cam "Intrinsic" "TangentalDistortion1" = .ok p7 ∧
      getField2 cam "Intrinsic" "TangentalDistortion2" = .ok p8 ∧
      c = ⟨idx, mid, w, hgt, [p1, p2, p3, p4, p5, p6, p7, p8]⟩ := by
  simp only [readIntrinsicsCam, if_pos, except_bind_ok, pure, Except.pure,
    Except.ok.injEq] at h
  obtain ⟨w, hw, hgt, hh, p1, h1, p2, h2, p3, h3, p4, h4, p5, h5, p6, h6,
    p7, h7, p8, h8, hc⟩ := h
  exact ⟨w, hgt, p1, p2, p3, p4, p5, p6, p7, p8,
    hw, hh, h1, h2, h3, h4, h5, h6, h7, h8, hc.symm⟩

lemma readIntrinsicsCam_id {t : String} {mid idx : ℕ} {cam : JVal} {c : Camera}
    (h : readIntrinsicsCam t mid idx cam = .ok c) :
    c.id = idx ∧ c.model = mid := by
  simp only [readIntrinsicsCam, except_bind_ok, pure, Except.pure] at h
  obtain ⟨w, hw, hgt, hh, h⟩ := h
  split at h
  · simp only [except_bind_ok, pure, Except.pure, Except.ok.injEq] at h
    obtain ⟨p1, h1, p2, h2, p3, h3, p4, h4, p5, h5, p6, h6, p7, h7, p8, h8,
      hc⟩ := h
    rw [← hc]
    exact ⟨rfl, rfl⟩
  · split at h
    · simp only [except_bind_ok, pure, Except.pure, Except.ok.injEq] at h
      obtain ⟨p1, h1, p2, h2, p3, h3, p4, h4, hc⟩ := h
      rw [← hc]
      exact ⟨rfl, rfl⟩
    · simp only [pure, Except.pure, Except.ok.injEq] at h
      rw [← h]
      exact ⟨rfl, rfl⟩

lemma readIntrinsicsCam_other_inv {t : String} {mid idx : ℕ} {cam : JVal}
    {c : Camera} (hto : t ≠ "OPENCV") (htp : t ≠ "PINHOLE")
    (h : readIntrinsicsCam t mid idx cam = .ok c) :
    ∃ w hgt,
      getField2 cam "FovVideo" "Right" = .ok w ∧
      getField2 cam "FovVideo" "Bottom" = .ok hgt ∧
      c = ⟨idx, mid, w, hgt, []⟩ := by
  simp only [readIntrinsicsCam, if_neg hto, if_neg htp, except_bind_ok, pure,
    Except.pure, Except.ok.injEq] at h
  obtain ⟨w, hw, hgt, hh, hc⟩ := h
  exact ⟨w, hgt, hw, hh, hc.symm⟩

lemma readIntrinsicsCam_other_ok {t : String} {mid idx : ℕ} {cam : JVal}
    {w hgt : JVal} (hto : t ≠ "OPENCV") (htp : t ≠ "PINHOLE")
    (hw : getField2 cam "FovVideo" "Right" = .ok w)
    (hh : getField2 cam "FovVideo" "Bottom" = .ok hgt) :
    readIntrinsicsCam t mid idx cam = .ok ⟨idx, mid, w, hgt, []⟩ := by
  simp [readIntrinsicsCam, if_neg hto, if_neg htp, hw, hh, Except.bind,
    Bind.bind, pure, Except.pure]

lemma readExtrinsicsCam_fields {rq : Matrix (Fin 3) (Fin 3) ℝ → (Fin 4 → ℝ)}
    {idx : ℕ} {cam : JVal} {img : Image}
    (h : readExtrinsicsCam rq idx cam = .ok img) :
    img.id = idx ∧ img.camera_id = idx ∧
    img.name = "Camera_" ++ toString idx ∧ img.xys = [] ∧
    img.point3D_ids = [] := by
  simp only [readExtrinsicsCam, except_bind_ok, pure, Except.pure,
    Except.ok.injEq] at h
  obtain ⟨tx, htx, ty, hty, tz, htz, w11, h11, w12, h12, w13, h13, w21, h21,
    w22, h22, w23, h23, w31, h31, w32, h32, w33, h33, r11, g11, r12, g12,
    r13, g13, r21, g21, r22, g22, r23, g23, r31, g31, r32, g32, r33, g33,
    hc⟩ := h
  rw [← hc]
  exact ⟨rfl, rfl, rfl, rfl, rfl⟩

/-- The required `Transform` keys, in the order `read_extrinsics_json`
evaluates them. -/
def transformKeys : List String :=
  ["x", "y", "z", "r11", "r12", "r13", "r21", "r22", "r23", "r31", "r32",
   "r33"]

/-- If the `n`-th required transform key is the first one absent from a
camera's `Transform` object, the element parse fails with `KeyError` on
exactly that key. -/
lemma readExtrinsicsCam_missing (rq : Matrix (Fin 3) (Fin 3) ℝ → (Fin 4 → ℝ))
    (idx : ℕ) (fields tf : List (String × JVal))
    (hf : fields.lookup "Transform" = some (.obj tf))
    (n : ℕ) (hn : n < transformKeys.length)
    (habs : tf.lookup transformKeys[n] = none)
    (hpre : ∀ m (hm : m < n), (tf.lookup transformKeys[m]).isSome) :
    readExtrinsicsCam rq idx (.obj fields) =
      .error (.fieldMissing transformKeys[n]) := by
  simp only [transformKeys, List.length_cons, List.length_nil] at hn
  interval_cases n
  · -- first absent key: "x"
    simp only [transformKeys, List.getElem_cons_zero, List.getElem_cons_succ] at habs ⊢
    simp [readExtrinsicsCam, getField2, getField, hf,  habs,
      Except.bind, Bind.bind]
  · -- first absent key: "y"
    simp only [transformKeys, List.getElem_cons_zero, List.getElem_cons_succ] at habs ⊢
    obtain ⟨v0, hv0⟩ := Option.isSome_iff_exists.mp (by
      simpa only [transformKeys, List.getElem_cons_zero, List.getElem_cons_succ] using hpre 0 (by omega))
    simp [readExtrinsicsCam, getField2, getField, hf, hv0, habs,
      Except.bind, Bind.bind]
  · -- first absent key: "z"
    simp only [transformKeys, List.getElem_cons_zero, List.getElem_cons_succ] at habs ⊢
    obtain ⟨v0, hv0⟩ := Option.isSome_iff_exists.mp (by
      simpa only [transformKeys, List.getElem_cons_zero, List.getElem_cons_succ] using hpre 0 (by omega))
    obtain ⟨v1, hv1⟩ := Option.isSome_iff_exists.mp (by
      simpa only [transformKeys, List.getElem_cons_zero, List.getElem_cons_succ] using hpre 1 (by omega))
    simp [readExtrinsicsCam, getField2, getField, hf, hv0, hv1, habs,
      Except.bind, Bind.bind]
  · -- first absent key: "r11"
    simp only [transformKeys, List.getElem_cons_zero, List.getElem_cons_succ] at habs ⊢
    obtain ⟨v0, hv0⟩ := Option.isSome_iff_exists.mp (by
      simpa only [transformKeys, List.getElem_cons_zero, List.getElem_cons_succ] using hpre 0 (by omega))
    obtain ⟨v1, hv1⟩ := Option.isSome_iff_exists.mp (by
      simpa only [transformKeys, List.getElem_cons_zero, List.getElem_cons_succ] using hpre 1 (by omega))
    obtain ⟨v2, hv2⟩ := Option.isSome_iff_exists.mp (by
      simpa only [transformKeys, List.getElem_cons_zero, List.getElem_cons_succ] using hpre 2 (by omega))
    simp [readExtrinsicsCam, getField2, getField, hf, hv0, hv1, hv2, habs,
      Except.bind, Bind.bind]
  · -- first absent key: "r12"
    simp only [transformKeys, List.getElem_cons_zero, List.getElem_cons_succ] at habs ⊢
    obtain ⟨v0, hv0⟩ := Option.isSome_iff_exists.mp (by
      simpa only [transformKeys, List.getElem_cons_zero, List.getElem_cons_succ] using hpre 0 (by omega))
    obtain ⟨v1, hv1⟩ := Option.isSome_iff_exists.mp (by
      simpa only [transformKeys, List.getElem_cons_zero, List.getElem_cons_succ] using hpre 1 (by omega))
    obtain ⟨v2, hv2⟩ := Option.isSome_iff_exists.mp (by
      simpa only [transformKeys, List.getElem_cons_zero, List.getElem_cons_succ] using hpre 2 (by omega))
    obtain ⟨v3, hv3⟩ := Option.isSome_iff_exists.mp (by
      simpa only [transformKeys, List.getElem_cons_zero, List.getElem_cons_succ] using hpre 3 (by omega))
    simp [readExtrinsicsCam, getField2, getField, hf, hv0, hv1, hv2, hv3, habs,
      Except.bind, Bind.bind]
  · -- first absent key: "r13"
    simp only [transformKeys, List.getElem_cons_zero, List.getElem_cons_succ] at habs ⊢
    obtain ⟨v0, hv0⟩ := Option.isSome_iff_exists.mp (by
      simpa only [transformKeys, List.getElem_cons_zero, List.getElem_cons_succ] using hpre 0 (by omega))
    obtain ⟨v1, hv1⟩ := Option.isSome_iff_exists.mp (by
      simpa only [transformKeys, List.getElem_cons_zero, List.getElem_cons_succ] using hpre 1 (by omega))
    obtain ⟨v2, hv2⟩ := Option.isSome_iff_exists.mp (by
      simpa only [transformKeys, List.getElem_cons_zero, List.getElem_cons_succ] using hpre 2 (by omega))
    obtain ⟨v3, hv3⟩ := Option.isSome_iff_exists.mp (by
      simpa only [transformKeys, List.getElem_cons_zero, List.getElem_cons_succ] using hpre 3 (by omega))
    obtain ⟨v4, hv4⟩ := Option.isSome_iff_exists.mp (by
      simpa only [transformKeys, List.getElem_cons_zero, List.getElem_cons_succ] using hpre 4 (by omega))
    simp [readExtrinsicsCam, getField2, getField, hf, hv0, hv1, hv2, hv3, hv4, habs,
      Except.bind, Bind.bind]
  · -- first absent key: "r21"
    simp only [transformKeys, List.getElem_cons_zero, List.getElem_cons_succ] at habs ⊢
    obtain ⟨v0, hv0⟩ := Option.isSome_iff_exists.mp (by
      simpa only [transformKeys, List.getElem_cons_zero, List.getElem_cons_succ] using hpre 0 (by omega))
    obtain ⟨v1, hv1⟩ := Option.isSome_iff_exists.mp (by
      simpa only [transformKeys, List.getElem_cons_zero, List.getElem_cons_succ] using hpre 1 (by omega))
    obtain ⟨v2, hv2⟩ := Option.isSome_iff_exists.mp (by
      simpa only [transformKeys, List.getElem_cons_zero, List.getElem_cons_succ] using hpre 2 (by omega))
    obtain ⟨v3, hv3⟩ := Option.isSome_iff_exists.mp (by
      simpa only [transformKeys, List.getElem_cons_zero, List.getElem_cons_succ] using hpre 3 (by omega))
    obtain ⟨v4, hv4⟩ := Option.isSome_iff_exists.mp (by
      simpa only [transformKeys, List.getElem_cons_zero, List.getElem_cons_succ] using hpre 4 (by omega))
    obtain ⟨v5, hv5⟩ := Option.isSome_iff_exists.mp (by
      simpa only [transformKeys, List.getElem_cons_zero, List.getElem_cons_succ] using hpre 5 (by omega))
    simp [readExtrinsicsCam, getField2, getField, hf, hv0, hv1, hv2, hv3, hv4, hv5, habs,
      Except.bind, Bind.bind]
  · -- first absent key: "r22"
    simp only [transformKeys, List.getElem_cons_zero, List.getElem_cons_succ] at habs ⊢
    obtain ⟨v0, hv0⟩ := Option.isSome_iff_exists.mp (by
      simpa only [transformKeys, List.getElem_cons_zero, List.getElem_cons_succ] using hpre 0 (by omega))
    obtain ⟨v1, hv1⟩ := Option.isSome_iff_exists.mp (by
      simpa only [transformKeys, List.getElem_cons_zero, List.getElem_cons_succ] using hpre 1 (by omega))
    obtain ⟨v2, hv2⟩ := Option.isSome_iff_exists.mp (by
      simpa only [transformKeys, List.getElem_cons_zero, List.getElem_cons_succ] using hpre 2 (by omega))
    obtain ⟨v3, hv3⟩ := Option.isSome_iff_exists.mp (by
      simpa only [transformKeys, List.getElem_cons_zero, List.getElem_cons_succ] using hpre 3 (by omega))
    obtain ⟨v4, hv4⟩ := Option.isSome_iff_exists.mp (by
      simpa only [transformKeys, List.getElem_cons_zero, List.getElem_cons_succ] using hpre 4 (by omega))
    obtain ⟨v5, hv5⟩ := Option.isSome_iff_exists.mp (by
      simpa only [transformKeys, List.getElem_cons_zero, List.getElem_cons_succ] using hpre 5 (by omega))
    obtain ⟨v6, hv6⟩ := Option.isSome_iff_exists.mp (by
      simpa only [transformKeys, List.getElem_cons_zero, List.getElem_cons_succ] using hpre 6 (by omega))
    simp [readExtrinsicsCam, getField2, getField, hf, hv0, hv1, hv2, hv3, hv4, hv5, hv6, habs,
      Except.bind, Bind.bind]
  · -- first absent key: "r23"
    simp only [transformKeys, List.getElem_cons_zero, List.getElem_cons_succ] at habs ⊢
    obtain ⟨v0, hv0⟩ := Option.isSome_iff_exists.mp (by
      simpa only [transformKeys, List.getElem_cons_zero, List.getElem_cons_succ] using hpre 0 (by omega))
    obtain ⟨v1, hv1⟩ := Option.isSome_iff_exists.mp (by
      simpa only [transformKeys, List.getElem_cons_zero, List.getElem_cons_succ] using hpre 1 (by omega))
    obtain ⟨v2, hv2⟩ := Option.isSome_iff_exists.mp (by
      simpa only [transformKeys, List.getElem_cons_zero, List.getElem_cons_succ] using hpre 2 (by omega))
    obtain ⟨v3, hv3⟩ := Option.isSome_iff_exists.mp (by
      simpa only [transformKeys, List.getElem_cons_zero, List.getElem_cons_succ] using hpre 3 (by omega))
    obtain ⟨v4, hv4⟩ := Option.isSome_iff_exists.mp (by
      simpa only [transformKeys, List.getElem_cons_zero, List.getElem_cons_succ] using hpre 4 (by omega))
    obtain ⟨v5, hv5⟩ := Option.isSome_iff_exists.mp (by
      simpa only [transformKeys, List.getElem_cons_zero, List.getElem_cons_succ] using hpre 5 (by omega))
    obtain ⟨v6, hv6⟩ := Option.isSome_iff_exists.mp (by
      simpa only [transformKeys, List.getElem_cons_zero, List.getElem_cons_succ] using hpre 6 (by omega))
    obtain ⟨v7, hv7⟩ := Option.isSome_iff_exists.mp (by
      simpa only [transformKeys, List.getElem_cons_zero, List.getElem_cons_succ] using hpre 7 (by omega))
    simp [readExtrinsicsCam, getField2, getField, hf, hv0, hv1, hv2, hv3, hv4, hv5, hv6, hv7, habs,
      Except.bind, Bind.bind]
  · -- first absent key: "r31"
    simp only [transformKeys, List.getElem_cons_zero, List.getElem_cons_succ] at habs ⊢
    obtain ⟨v0, hv0⟩ := Option.isSome_iff_exists.mp (by
      simpa only [transformKeys, List.getElem_cons_zero, List.getElem_cons_succ] using hpre 0 (by omega))
    obtain ⟨v1, hv1⟩ := Option.isSome_iff_exists.mp (by
      simpa only [transformKeys, List.getElem_cons_zero, List.getElem_cons_succ] using hpre 1 (by omega))
    obtain ⟨v2, hv2⟩ := Option.isSome_iff_exists.mp (by
      simpa only [transformKeys, List.getElem_cons_zero, List.getElem_cons_succ] using hpre 2 (by omega))
    obtain ⟨v3, hv3⟩ := Option.isSome_iff_exists.mp (by
      simpa only [transformKeys, List.getElem_cons_zero, List.getElem_cons_succ] using hpre 3 (by omega))
    obtain ⟨v4, hv4⟩ := Option.isSome_iff_exists.mp (by
      simpa only [transformKeys, List.getElem_cons_zero, List.getElem_cons_succ] using hpre 4 (by omega))
    obtain ⟨v5, hv5⟩ := Option.isSome_iff_exists.mp (by
      simpa only [transformKeys, List.getElem_cons_zero, List.getElem_cons_succ] using hpre 5 (by omega))
    obtain ⟨v6, hv6⟩ := Option.isSome_iff_exists.mp (by
      simpa only [transformKeys, List.getElem_cons_zero, List.getElem_cons_succ] using hpre 6 (by omega))
    obtain ⟨v7, hv7⟩ := Option.isSome_iff_exists.mp (by
      simpa only [transformKeys, List.getElem_cons_zero, List.getElem_cons_succ] using hpre 7 (by omega))
    obtain ⟨v8, hv8⟩ := Option.isSome_iff_exists.mp (by
      simpa only [transformKeys, List.getElem_cons_zero, List.getElem_cons_succ] using hpre 8 (by omega))
    simp [readExtrinsicsCam, getField2, getField, hf, hv0, hv1, hv2, hv3, hv4, hv5, hv6, hv7, hv8, habs,
      Except.bind, Bind.bind]
  · -- first absent key: "r32"
    simp only [transformKeys, List.getElem_cons_zero, List.getElem_cons_succ] at habs ⊢
    obtain ⟨v0, hv0⟩ := Option.isSome_iff_exists.mp (by
      simpa only [transformKeys, List.getElem_cons_zero, List.getElem_cons_succ] using hpre 0 (by omega))
    obtain ⟨v1, hv1⟩ := Option.isSome_iff_exists.mp (by
      simpa only [transformKeys, List.getElem_cons_zero, List.getElem_cons_succ] using hpre 1 (by omega))
    obtain ⟨v2, hv2⟩ := Option.isSome_iff_exists.mp (by
      simpa only [transformKeys, List.getElem_cons_zero, List.getElem_cons_succ] using hpre 2 (by omega))
    obtain ⟨v3, hv3⟩ := Option.isSome_iff_exists.mp (by
      simpa only [transformKeys, List.getElem_cons_zero, List.getElem_cons_succ] using hpre 3 (by omega))
    obtain ⟨v4, hv4⟩ := Option.isSome_iff_exists.mp (by
      simpa only [transformKeys, List.getElem_cons_zero, List.getElem_cons_succ] using hpre 4 (by omega))
    obtain ⟨v5, hv5⟩ := Option.isSome_iff_exists.mp (by
      simpa only [transformKeys, List.getElem_cons_zero, List.getElem_cons_succ] using hpre 5 (by omega))
    obtain ⟨v6, hv6⟩ := Option.isSome_iff_exists.mp (by
      simpa only [transformKeys, List.getElem_cons_zero, List.getElem_cons_succ] using hpre 6 (by omega))
    obtain ⟨v7, hv7⟩ := Option.isSome_iff_exists.mp (by
      simpa only [transformKeys, List.getElem_cons_zero, List.getElem_cons_succ] using hpre 7 (by omega))
    obtain ⟨v8, hv8⟩ := Option.isSome_iff_exists.mp (by
      simpa only [transformKeys, List.getElem_cons_zero, List.getElem_cons_succ] using hpre 8 (by omega))
    obtain ⟨v9, hv9⟩ := Option.isSome_iff_exists.mp (by
      simpa only [transformKeys, List.getElem_cons_zero, List.getElem_cons_succ] using hpre 9 (by omega))
    simp [readExtrinsicsCam, getField2, getField, hf, hv0, hv1, hv2, hv3, hv4, hv5, hv6, hv7, hv8, hv9, habs,
      Except.bind, Bind.bind]
  · -- first absent key: "r33"
    simp only [transformKeys, List.getElem_cons_zero, List.getElem_cons_succ] at habs ⊢
    obtain ⟨v0, hv0⟩ := Option.isSome_iff_exists.mp (by
      simpa only [transformKeys, List.getElem_cons_zero, List.getElem_cons_succ] using hpre 0 (by omega))
    obtain ⟨v1, hv1⟩ := Option.isSome_iff_exists.mp (by
      simpa only [transformKeys, List.getElem_cons_zero, List.getElem_cons_succ] using hpre 1 (by omega))
    obtain ⟨v2, hv2⟩ := Option.isSome_iff_exists.mp (by
      simpa only [transformKeys, List.getElem_cons_zero, List.getElem_cons_succ] using hpre 2 (by omega))
    obtain ⟨v3, hv3⟩ := Option.isSome_iff_exists.mp (by
      simpa only [transformKeys, List.getElem_cons_zero, List.getElem_cons_succ] using hpre 3 (by omega))
    obtain ⟨v4, hv4⟩ := Option.isSome_iff_exists.mp (by
      simpa only [transformKeys, List.getElem_cons_zero, List.getElem_cons_succ] using hpre 4 (by omega))
    obtain ⟨v5, hv5⟩ := Option.isSome_iff_exists.mp (by
      simpa only [transformKeys, List.getElem_cons_zero, List.getElem_cons_succ] using hpre 5 (by omega))
    obtain ⟨v6, hv6⟩ := Option.isSome_iff_exists.mp (by
      simpa only [transformKeys, List.getElem_cons_zero, List.getElem_cons_succ] using hpre 6 (by omega))
    obtain ⟨v7, hv7⟩ := Option.isSome_iff_exists.mp (by
      simpa only [transformKeys, List.getElem_cons_zero, List.getElem_cons_succ] using hpre 7 (by omega))
    obtain ⟨v8, hv8⟩ := Option.isSome_iff_exists.mp (by
      simpa only [transformKeys, List.getElem_cons_zero, List.getElem_cons_succ] using hpre 8 (by omega))
    obtain ⟨v9, hv9⟩ := Option.isSome_iff_exists.mp (by
      simpa only [transformKeys, List.getElem_cons_zero, List.getElem_cons_succ] using hpre 9 (by omega))
    obtain ⟨v10, hv10⟩ := Option.isSome_iff_exists.mp (by
      simpa only [transformKeys, List.getElem_cons_zero, List.getElem_cons_succ] using hpre 10 (by omega))
    simp [readExtrinsicsCam, getField2, getField, hf, hv0, hv1, hv2, hv3, hv4, hv5, hv6, hv7, hv8, hv9, hv10, habs,
      Except.bind, Bind.bind]

/-- The identity rotation matrix, in the form the extrinsics reader assembles
it from an identity `Transform` block. -/
def idR : Matrix (Fin 3) (Fin 3) ℝ := !![1, 0, 0; 0, 1, 0; 0, 0, 1]

/-- Eigenvalue bound for an explicit diagonal 4x4 matrix: every eigenvalue is
one of the diagonal entries. -/
lemma max_eig_of_diag {A : Matrix (Fin 4) (Fin 4) ℝ} {d0 d1 d2 d3 : ℝ}
    (hA : A = !![d0, 0, 0, 0; 0, d1, 0, 0; 0, 0, d2, 0; 0, 0, 0, d3])
    (bound : ℝ) (h0 : d0 ≤ bound) (h1 : d1 ≤ bound) (h2 : d2 ≤ bound)
    (h3 : d3 ≤ bound) : ∀ mu, IsEigenvalue A mu → mu ≤ bound := by
  intro mu hmu
  obtain ⟨w, hw, hmw⟩ := hmu
  subst hA
  obtain ⟨i, hi⟩ := Function.ne_iff.mp hw
  simp only [Pi.zero_apply] at hi
  have e := congrFun hmw i
  fin_cases i <;>
    simp [Matrix.mulVec, Matrix.dotProduct, Fin.sum_univ_four,
      Matrix.vecHead, Matrix.vecTail] at e hi <;>
    rcases e with h4 | h4 <;>
    first
      | (exact absurd h4 hi)
      | linarith

/-- `Kmat` of the identity rotation is the diagonal matrix
`diag(-1/3, -1/3, -1/3, 1)`. -/
lemma Kmat_idR : Kmat idR =
    !![-(1/3), 0, 0, 0; 0, -(1/3), 0, 0; 0, 0, -(1/3), 0; 0, 0, 0, 1] := by
  ext i j
  fin_cases i <;> fin_cases j <;>
    norm_num [Kmat, idR, Matrix.vecHead, Matrix.vecTail]

/-- `![1, 0, 0, 0]` is a possible output of `rotmat2qvec` on the identity
matrix. -/
lemma isOutput_idR : IsRotmat2qvecOutput idR ![1, 0, 0, 0] := by
  refine ⟨![0, 0, 0, 1], 1, ?_, ?_, ?_, Or.inl ⟨by norm_num, ?_⟩⟩
  · norm_num [unitVec4]
  · funext i
    fin_cases i <;>
      simp [Kmat, idR, Matrix.mulVec, Matrix.dotProduct, Fin.sum_univ_four,
        Matrix.vecHead, Matrix.vecTail] <;>
      norm_num
  · exact max_eig_of_diag Kmat_idR 1 (by norm_num) (by norm_num) (by norm_num)
      (by norm_num)
  · funext i
    fin_cases i <;> simp [reorder]

/-- On the identity matrix, `rotmat2qvec` can only return `![1, 0, 0, 0]`. -/
lemma output_idR_unique {q : Fin 4 → ℝ}
    (h : IsRotmat2qvecOutput idR q) : q = ![1, 0, 0, 0] := by
  obtain ⟨v, lam, hu, heig, hmax, hsign⟩ := h
  have hu' : v 0^2 + v 1^2 + v 2^2 + v 3^2 = 1 := hu
  have hvne : v ≠ 0 := by
    intro h0
    rw [h0] at hu'
    norm_num at hu'
  have hle : lam ≤ 1 := max_eig_of_diag Kmat_idR 1 (by norm_num) (by norm_num)
    (by norm_num) (by norm_num) lam ⟨v, hvne, heig⟩
  have hge : 1 ≤ lam := by
    refine hmax 1 ⟨![0, 0, 0, 1], ?_, ?_⟩
    · intro h0
      have h3 := congrFun h0 3
      norm_num at h3
    · funext i
      fin_cases i <;>
        simp [Kmat, idR, Matrix.mulVec, Matrix.dotProduct, Fin.sum_univ_four,
          Matrix.vecHead, Matrix.vecTail] <;>
        norm_num
  have hlam : lam = 1 := le_antisymm hle hge
  subst hlam
  have e0 := congrFun heig 0
  have e1 := congrFun heig 1
  have e2 := congrFun heig 2
  simp [Kmat, idR, Matrix.mulVec, Matrix.dotProduct, Fin.sum_univ_four,
    Matrix.vecHead, Matrix.vecTail] at e0 e1 e2
  have hv0 : v 0 = 0 := by linarith
  have hv1 : v 1 = 0 := by linarith
  have hv2 : v 2 = 0 := by linarith
  have hsq : (v 3 - 1) * (v 3 + 1) = 0 := by
    linear_combination hu' - (v 0) * hv0 - (v 1) * hv1 - (v 2) * hv2
  have hv3 : v 3 = 1 ∨ v 3 = -1 := by
    rcases mul_eq_zero.mp hsq with h3 | h3
    · left; linarith
    · right; linarith
  rcases hsign with ⟨hge3, hq⟩ | ⟨hlt3, hq⟩
  · rcases hv3 with h3 | h3
    · subst hq
      funext i
      fin_cases i <;> simp [reorder, hv0, hv1, hv2, h3]
    · rw [h3] at hge3
      norm_num at hge3
  · rcases hv3 with h3 | h3
    · rw [h3] at hlt3
      norm_num at hlt3
    · subst hq
      funext i
      fin_cases i <;> simp [reorder, hv0, hv1, hv2, h3]

/-- `Kmat` of the 180-degree rotation about the x-axis (the image of the
quaternion `(0, 1, 0, 0)`) is the diagonal matrix `diag(1, -1/3, -1/3, -1/3)`. -/
lemma Kmat_R180 : Kmat (qvec2rotmat ![0, 1, 0, 0]) =
    !![1, 0, 0, 0; 0, -(1/3), 0, 0; 0, 0, -(1/3), 0; 0, 0, 0, -(1/3)] := by
  ext i j
  fin_cases i <;> fin_cases j <;>
    norm_num [Kmat, qvec2rotmat, Matrix.vecHead, Matrix.vecTail]

/-- The negated representative `![0, -1, 0, 0]` is a possible output of
`rotmat2qvec` on the rotation produced by the unit quaternion
`![0, 1, 0, 0]`: the eigensolver may return either sign of the eigenvector,
and the code flips the sign only when the leading component is strictly
negative — which a zero leading component never triggers. -/
lemma isOutput_R180 :
    IsRotmat2qvecOutput (qvec2rotmat ![0, 1, 0, 0]) ![0, -1, 0, 0] := by
  refine ⟨![-1, 0, 0, 0], 1, ?_, ?_, ?_, Or.inl ⟨by norm_num, ?_⟩⟩
  · norm_num [unitVec4]
  · rw [Kmat_R180]
    funext i
    fin_cases i <;>
      simp [Matrix.mulVec, Matrix.dotProduct, Fin.sum_univ_four,
        Matrix.vecHead, Matrix.vecTail] <;>
      norm_num
  · exact max_eig_of_diag Kmat_R180 1 (by norm_num) (by norm_num)
      (by norm_num) (by norm_num)
  · funext i
    fin_cases i <;> simp [reorder]

/-- Inversion of a successful `read_intrinsics_json` run. -/
lemma read_intrinsics_ok_inv {file : JVal} {t : String}
    {m : List (ℕ × Camera)}
    (h : read_intrinsics_json (some file) t = .ok m) :
    ∃ cm elems, CAMERA_MODEL_NAMES t = some cm ∧
      getField file "Cameras" = .ok (.arr elems) ∧
      enumerateFrom (readIntrinsicsCam t cm.model_id) 1 elems = .ok m := by
  unfold read_intrinsics_json at h
  cases hcm : CAMERA_MODEL_NAMES t with
  | none =>
    rw [hcm] at h
    exact absurd h (by simp)
  | some cm =>
    rw [hcm] at h
    simp only [except_bind_ok] at h
    obtain ⟨cams, hc, h2⟩ := h
    cases cams with
    | arr elems => exact ⟨cm, elems, rfl, hc, h2⟩
    | num x => exact absurd h2 (by simp)
    | str s => exact absurd h2 (by simp)
    | bool b => exact absurd h2 (by simp)
    | null => exact absurd h2 (by simp)
    | obj fields => exact absurd h2 (by simp)

/-- Inversion of a successful `read_extrinsics_json` run. -/
lemma read_extrinsics_ok_inv {rq : Matrix (Fin 3) (Fin 3) ℝ → (Fin 4 → ℝ)}
    {file : JVal} {m : List (ℕ × Image)}
    (h : read_extrinsics_json rq (some file) = .ok m) :
    ∃ elems, getField file "Cameras" = .ok (.arr elems) ∧
      enumerateFrom (readExtrinsicsCam rq) 1 elems = .ok m := by
  unfold read_extrinsics_json at h
  simp only [except_bind_ok] at h
  obtain ⟨cams, hc, h2⟩ := h
  cases cams with
  | arr elems => exact ⟨elems, hc, h2⟩
  | num x => exact absurd h2 (by simp)
  | str s => exact absurd h2 (by simp)
  | bool b => exact absurd h2 (by simp)
  | null => exact absurd h2 (by simp)
  | obj fields => exact absurd h2 (by simp)

/-- A sample camera element carrying all blocks the loader reads. -/
def sampleCam : JVal :=
  .obj [("FovVideo", .obj [("Right", .num 1920), ("Bottom", .num 1080)]),
    ("Intrinsic", .obj [("FocalLengthU", .num 900), ("FocalLengthV", .num 910),
      ("CenterPointU", .num 960), ("CenterPointV", .num 540),
      ("RadialDistortion1", .num 5), ("RadialDistortion2", .num 6),
      ("TangentalDistortion1", .num 7), ("TangentalDistortion2", .num 8)]),
    ("Transform", .obj [("x", .num 1), ("y", .num 2), ("z", .num 3),
      ("r11", .num 1), ("r12", .num 0), ("r13", .num 0),
      ("r21", .num 0), ("r22", .num 1), ("r23", .num 0),
      ("r31", .num 0), ("r32", .num 0), ("r33", .num 1)])]

/-- A sample document with a single camera. -/
def sampleDoc : JVal := .obj [("Cameras", .arr [sampleCam])]

/-- The document of the identity-rotation extrinsics test case: one camera
whose `Transform` block is `{x:1, y:2, z:3}` with the identity rotation. -/
def docC6 : JVal := .obj [("Cameras", .arr [
  .obj [("Transform", .obj [("x", .num 1), ("y", .num 2), ("z", .num 3),
    ("r11", .num 1), ("r12", .num 0), ("r13", .num 0),
    ("r21", .num 0), ("r22", .num 1), ("r23", .num 0),
    ("r31", .num 0), ("r32", .num 0), ("r33", .num 1)])]])]

/-- A document whose single camera lacks the `Transform.r11` key. -/
def missingDoc : JVal := .obj [("Cameras", .arr [
  .obj [("Transform", .obj [("x", .num 1), ("y", .num 2), ("z", .num 3)])]])]

/-- A concrete stand-in for `rotmat2qvec` used to instantiate witnesses: it
returns the identity quaternion, which is a valid `eigh`-based output on the
identity rotation matrix. -/
def constQvec : Matrix (Fin 3) (Fin 3) ℝ → Fin 4 → ℝ := fun _ => ![1, 0, 0, 0]

/-- The `Camera` record produced for `sampleCam` under the `OPENCV` model. -/
def sampleCamParsed : Camera :=
  ⟨1, 4, .num 1920, .num 1080, [.num 900, .num 910, .num 960, .num 540,
    .num 5, .num 6, .num 7, .num 8]⟩

/-- The `Image` record produced for the identity-transform camera element. -/
def sampleImgParsed : Image :=
  ⟨1, ![1, 0, 0, 0], ![.num 1, .num 2, .num 3], 1, "Camera_1", [], []⟩

/-- C1 (amended): round-trip of the rotation converters.  For every
orthonormal `R` with determinant +1, every possible return `q` of
`rotmat2qvec(R)` satisfies `qvec2rotmat(q) = R` exactly (so within any
tolerance); and for every unit quaternion `q`, every possible return `q'` of
`rotmat2qvec(qvec2rotmat(q))` equals `q` up to global sign, and equals `q`
exactly whenever `q 0 > 0`.  (At `q 0 = 0` the eigensolver may legitimately
return either representative, both of which have nonnegative leading
component and survive the sign flip unchanged.) -/
theorem claim_C1_rotation_roundtrip :
    (∀ (R : Matrix (Fin 3) (Fin 3) ℝ) (q : Fin 4 → ℝ), Rᵀ * R = 1 →
      R.det = 1 → IsRotmat2qvecOutput R q → qvec2rotmat q = R) ∧
    (∀ q q' : Fin 4 → ℝ, unitVec4 q →
      IsRotmat2qvecOutput (qvec2rotmat q) q' →
      (q' = q ∨ q' = -q) ∧ (0 < q 0 → q' = q)) :=
  ⟨rotmat2qvec_left_inverse, qvec2rotmat_left_inverse⟩

/-- C1, witness: both round-trip directions instantiated at the identity
rotation and the identity quaternion. -/
theorem claim_C1_rotation_roundtrip_witness :
    qvec2rotmat ![1, 0, 0, 0] = idR ∧
    ((![1, 0, 0, 0] : Fin 4 → ℝ) = ![1, 0, 0, 0] ∨
      (![1, 0, 0, 0] : Fin 4 → ℝ) = -![1, 0, 0, 0]) := by
  have hR : idRᵀ * idR = 1 := by
    rw [Matrix.one_fin_three]
    ext i j
    rw [Matrix.mul_apply]
    simp only [Matrix.transpose_apply, Fin.sum_univ_three]
    fin_cases i <;> fin_cases j <;>
      norm_num [idR, Matrix.vecHead, Matrix.vecTail]
  have hdet : idR.det = 1 := by
    norm_num [idR, Matrix.det_fin_three, Matrix.vecHead, Matrix.vecTail]
  have h1 : qvec2rotmat ![1, 0, 0, 0] = idR :=
    claim_C1_rotation_roundtrip.1 idR ![1, 0, 0, 0] hR hdet isOutput_idR
  have hout2 : IsRotmat2qvecOutput (qvec2rotmat ![1, 0, 0, 0]) ![1, 0, 0, 0] := by
    rw [h1]
    exact isOutput_idR
  have h2 := (claim_C1_rotation_roundtrip.2 ![1, 0, 0, 0] ![1, 0, 0, 0]
    (by norm_num [unitVec4]) hout2).1
  exact ⟨h1, h2⟩

/-- C1, counterexample to the original wording: for the unit quaternion
`q = (0, 1, 0, 0)` (leading component `= 0`, so `q 0 ≥ 0`), the vector
`(0, -1, 0, 0)` is also a legitimate return of
`rotmat2qvec(qvec2rotmat(q))` — the eigensolver's sign for the eigenvector
is unspecified and the code's flip fires only on strictly negative leading
components — and it differs from `q`.  So "exactly `q` when `q[0] ≥ 0`" does
not hold; "exactly `q` when `q[0] > 0`" does. -/
theorem claim_C1_counterexample :
    unitVec4 ![0, 1, 0, 0] ∧ (0 : ℝ) ≤ (![0, 1, 0, 0] : Fin 4 → ℝ) 0 ∧
    IsRotmat2qvecOutput (qvec2rotmat ![0, 1, 0, 0]) ![0, -1, 0, 0] ∧
    (![0, -1, 0, 0] : Fin 4 → ℝ) ≠ ![0, 1, 0, 0] := by
  refine ⟨by norm_num [unitVec4], by norm_num, isOutput_R180, ?_⟩
  intro h
  have h1 := congrFun h 1
  norm_num at h1

/-- C2 (amended): for every successfully decoded document — whatever its
shape, even one missing every camera field — and every model type not in the
registry, `read_intrinsics_json` fails with the unsupported-camera-model
error, raised before any document field is read.  (A file that fails JSON
decoding instead fails with the decode error first: `json.load` runs before
the registry check.) -/
theorem claim_C2_unsupported_model (doc : JVal) (t : String)
    (h : CAMERA_MODEL_NAMES t = none) :
    read_intrinsics_json (some doc) t = .error (.unsupportedCameraModel t) := by
  simp [read_intrinsics_json, h]

/-- C2, witness: a document that is a bare number — no `Cameras` array, no
fields at all — still produces the unsupported-model error. -/
theorem claim_C2_unsupported_model_witness :
    read_intrinsics_json (some (.num 0)) "UNKNOWN_MODEL" =
      .error (.unsupportedCameraModel "UNKNOWN_MODEL") :=
  claim_C2_unsupported_model (.num 0) "UNKNOWN_MODEL" rfl

/-- C2, counterexample to the original wording: on a file that fails JSON
decoding, the call fails with the decode error, not with
`UnsupportedCameraModel`, even though the model type is unknown — `json.load`
runs before the registry check, so the check is not "before any parsing". -/
theorem claim_C2_counterexample :
    read_intrinsics_json none "UNKNOWN_MODEL" = .error .malformedDocument ∧
    read_intrinsics_json none "UNKNOWN_MODEL" ≠
      .error (.unsupportedCameraModel "UNKNOWN_MODEL") := by
  refine ⟨rfl, ?_⟩
  simp [read_intrinsics_json]

/-- C3: parsing is all-or-nothing under missing keys.  If every camera
element before position `front.length` parses, and the element there has a
`Transform` object whose first absent required key (in the source's reading
order `x, y, z, r11 … r33`) is `transformKeys[n]`, then the whole call
returns the field-missing error for exactly that key — an `Except.error`
carries no mapping, so no partial mapping with the previously parsed
elements is ever visible to the caller. -/
theorem claim_C3_all_or_nothing (rq : Matrix (Fin 3) (Fin 3) ℝ → (Fin 4 → ℝ))
    (doc : JVal) (elems front rest : List JVal)
    (fields tf : List (String × JVal)) (n : ℕ)
    (hcams : getField doc "Cameras" = .ok (.arr elems))
    (hsplit : elems = front ++ JVal.obj fields :: rest)
    (hfront : ∀ j (h : j < front.length), ∃ img,
      readExtrinsicsCam rq (1 + j) front[j] = .ok img)
    (hf : fields.lookup "Transform" = some (.obj tf))
    (hn : n < transformKeys.length)
    (habs : tf.lookup transformKeys[n] = none)
    (hpre : ∀ m (hm : m < n), (tf.lookup transformKeys[m]).isSome) :
    read_extrinsics_json rq (some doc) =
      .error (.fieldMissing transformKeys[n]) := by
  subst hsplit
  have hred : read_extrinsics_json rq (some doc) =
      enumerateFrom (readExtrinsicsCam rq) 1
        (front ++ JVal.obj fields :: rest) := by
    simp [read_extrinsics_json, hcams, Except.bind, Bind.bind]
  rw [hred]
  exact enumerateFrom_err (readExtrinsicsCam rq) front (JVal.obj fields) rest
    1 (.fieldMissing transformKeys[n]) hfront
    (readExtrinsicsCam_missing rq (1 + front.length) fields tf hf n hn habs
      hpre)

/-- C3, witness: a document whose single camera carries only `x, y, z` —
`r11` is the first absent required key — fails with the `r11` key error and
returns no mapping. -/
theorem claim_C3_all_or_nothing_witness :
    read_extrinsics_json constQvec (some missingDoc) =
      .error (.fieldMissing "r11") := by
  have h := claim_C3_all_or_nothing constQvec missingDoc
    [.obj [("Transform", .obj [("x", .num 1), ("y", .num 2), ("z", .num 3)])]]
    [] []
    [("Transform", .obj [("x", .num 1), ("y", .num 2), ("z", .num 3)])]
    [("x", .num 1), ("y", .num 2), ("z", .num 3)] 3
    rfl rfl
    (fun j hj => absurd hj (by simp))
    rfl (by norm_num [transformKeys]) rfl
    (fun m hm => by interval_cases m <;> rfl)
  exact h

/-- C4: under the `OPENCV` model, every returned `Camera`'s `params` is
exactly the eight `Intrinsic` values `FocalLengthU, FocalLengthV,
CenterPointU, CenterPointV, RadialDistortion1, RadialDistortion2,
TangentalDistortion1, TangentalDistortion2` of its element, in that fixed
order, with length 8. -/
theorem claim_C4_opencv_params (doc : JVal) (m : List (ℕ × Camera))
    (elems : List JVal) (cam : JVal) (k : ℕ) (c : Camera)
    (p1 p2 p3 p4 p5 p6 p7 p8 : JVal)
    (h : read_intrinsics_json (some doc) "OPENCV" = .ok m)
    (hmem : (k, c) ∈ m)
    (hcams : getField doc "Cameras" = .ok (.arr elems))
    (hcam : elems[k - 1]? = some cam)
    (h1 : getField2 cam "Intrinsic" "FocalLengthU" = .ok p1)
    (h2 : getField2 cam "Intrinsic" "FocalLengthV" = .ok p2)
    (h3 : getField2 cam "Intrinsic" "CenterPointU" = .ok p3)
    (h4 : getField2 cam "Intrinsic" "CenterPointV" = .ok p4)
    (h5 : getField2 cam "Intrinsic" "RadialDistortion1" = .ok p5)
    (h6 : getField2 cam "Intrinsic" "RadialDistortion2" = .ok p6)
    (h7 : getField2 cam "Intrinsic" "TangentalDistortion1" = .ok p7)
    (h8 : getField2 cam "Intrinsic" "TangentalDistortion2" = .ok p8) :
    c.params = [p1, p2, p3, p4, p5, p6, p7, p8] ∧ c.params.length = 8 := by
  obtain ⟨cm, elems', hcm, hcams', henum⟩ := read_intrinsics_ok_inv h
  have he : elems' = elems := by
    have := hcams'.symm.trans hcams
    simpa using this
  rw [he] at henum
  obtain ⟨_, hmemf⟩ := enumerateFrom_ok _ elems 1 m henum
  obtain ⟨hk1, cam', hcam', hokc⟩ := hmemf (k, c) hmem
  have hcc : cam' = cam := by
    have := hcam'.symm.trans hcam
    simpa using this
  subst hcc
  have hokc' : readIntrinsicsCam "OPENCV" cm.model_id k cam' = Except.ok c :=
    hokc
  obtain ⟨w, hgt, q1, q2, q3, q4, q5, q6, q7, q8, _, _, g1, g2, g3, g4, g5,
    g6, g7, g8, hc⟩ := readIntrinsicsCam_opencv_inv hokc'
  have e1 : q1 = p1 := by have := g1.symm.trans h1; simpa using this
  have e2 : q2 = p2 := by have := g2.symm.trans h2; simpa using this
  have e3 : q3 = p3 := by have := g3.symm.trans h3; simpa using this
  have e4 : q4 = p4 := by have := g4.symm.trans h4; simpa using this
  have e5 : q5 = p5 := by have := g5.symm.trans h5; simpa using this
  have e6 : q6 = p6 := by have := g6.symm.trans h6; simpa using this
  have e7 : q7 = p7 := by have := g7.symm.trans h7; simpa using this
  have e8 : q8 = p8 := by have := g8.symm.trans h8; simpa using this
  subst hc
  simp [e1, e2, e3, e4, e5, e6, e7, e8]

/-- C4, witness: the sample document's single camera, parsed with the
`OPENCV` model, carries exactly its eight intrinsic values in order. -/
theorem claim_C4_opencv_params_witness :
    sampleCamParsed.params = [.num 900, .num 910, .num 960, .num 540,
      .num 5, .num 6, .num 7, .num 8] ∧ sampleCamParsed.params.length = 8 :=
  claim_C4_opencv_params sampleDoc [(1, sampleCamParsed)] [sampleCam]
    sampleCam 1 sampleCamParsed
    (.num 900) (.num 910) (.num 960) (.num 540) (.num 5) (.num 6) (.num 7)
    (.num 8) rfl (by simp) rfl rfl rfl rfl rfl rfl rfl rfl rfl rfl

/-- C5: on a document whose `Cameras` array has length `N`, successful runs
of both parsers return mappings with exactly `N` entries whose keys are
`1 … N` in order, and every record's `id` field (and, for pose records, the
`camera_id` field) equals its key — the synthetic 1-based enumeration
position. -/
theorem claim_C5_keys_and_ids (t : String)
    (rq : Matrix (Fin 3) (Fin 3) ℝ → (Fin 4 → ℝ)) (doc : JVal)
    (elems : List JVal) (m1 : List (ℕ × Camera)) (m2 : List (ℕ × Image))
    (hcams : getField doc "Cameras" = .ok (.arr elems))
    (h1 : read_intrinsics_json (some doc) t = .ok m1)
    (h2 : read_extrinsics_json rq (some doc) = .ok m2) :
    m1.map Prod.fst = List.range' 1 elems.length ∧
    m2.map Prod.fst = List.range' 1 elems.length ∧
    m1.length = elems.length ∧ m2.length = elems.length ∧
    (∀ p ∈ m1, p.2.id = p.1) ∧
    (∀ p ∈ m2, p.2.id = p.1 ∧ p.2.camera_id = p.1) := by
  obtain ⟨cm, elems', hcm, hcams', henum⟩ := read_intrinsics_ok_inv h1
  have he : elems' = elems := by
    have := hcams'.symm.trans hcams
    simpa using this
  rw [he] at henum
  obtain ⟨elems'', hcams'', henum2⟩ := read_extrinsics_ok_inv h2
  have he2 : elems'' = elems := by
    have := hcams''.symm.trans hcams
    simpa using this
  rw [he2] at henum2
  obtain ⟨hkeys1, hmem1⟩ := enumerateFrom_ok _ elems 1 m1 henum
  obtain ⟨hkeys2, hmem2⟩ := enumerateFrom_ok _ elems 1 m2 henum2
  refine ⟨hkeys1, hkeys2, ?_, ?_, ?_, ?_⟩
  · have := congrArg List.length hkeys1
    simpa using this
  · have := congrArg List.length hkeys2
    simpa using this
  · intro p hp
    obtain ⟨_, cam, _, hok⟩ := hmem1 p hp
    exact (readIntrinsicsCam_id hok).1
  · intro p hp
    obtain ⟨_, cam, _, hok⟩ := hmem2 p hp
    obtain ⟨hid, hcid, _, _, _⟩ := readExtrinsicsCam_fields hok
    exact ⟨hid, hcid⟩

/-- C5, witness: on the one-camera sample document both parsers return
exactly the mapping `{1 ↦ record}` with `id = 1`. -/
theorem claim_C5_keys_and_ids_witness :
    [(1, sampleCamParsed)].map Prod.fst = List.range' 1 1 ∧
    [(1, sampleImgParsed)].map Prod.fst = List.range' 1 1 ∧
    sampleCamParsed.id = 1 ∧ sampleImgParsed.id = 1 := by
  have h := claim_C5_keys_and_ids "OPENCV" constQvec sampleDoc [sampleCam]
    [(1, sampleCamParsed)] [(1, sampleImgParsed)] rfl rfl rfl
  exact ⟨h.1, h.2.1, (h.2.2.2.2.1 (1, sampleCamParsed) (by simp)),
    (h.2.2.2.2.2 (1, sampleImgParsed) (by simp)).1⟩

/-- C6: on the document with one camera whose `Transform` is
`{x:1, y:2, z:3}` with the identity rotation, the extrinsics reader —
for any behaviour of `rotmat2qvec` consistent with its eigensolver
specification at the identity matrix — returns exactly the mapping
`{1 ↦ Image}` with `id = 1`, `qvec = [1, 0, 0, 0]` (exactly, hence within
any tolerance), `tvec = [1, 2, 3]`, `camera_id = 1`, `name = "Camera_1"`,
and empty `xys` and `point3D_ids`. -/
theorem claim_C6_identity_extrinsics
    (rq : Matrix (Fin 3) (Fin 3) ℝ → (Fin 4 → ℝ))
    (hrq : IsRotmat2qvecOutput idR (rq idR)) :
    read_extrinsics_json rq (some docC6) =
      .ok [(1, ⟨1, ![1, 0, 0, 0], ![.num 1, .num 2, .num 3], 1, "Camera_1",
        [], []⟩)] := by
  have hq : rq idR = ![1, 0, 0, 0] := output_idR_unique hrq
  have hred : read_extrinsics_json rq (some docC6) =
      .ok [(1, ⟨1, rq idR, ![.num 1, .num 2, .num 3], 1, "Camera_1",
        [], []⟩)] := rfl
  rw [hred, hq]

/-- C6, witness: instantiated with the constant stand-in `rotmat2qvec`,
which is a valid eigensolver output at the identity matrix. -/
theorem claim_C6_identity_extrinsics_witness :
    read_extrinsics_json constQvec (some docC6) =
      .ok [(1, ⟨1, ![1, 0, 0, 0], ![.num 1, .num 2, .num 3], 1, "Camera_1",
        [], []⟩)] :=
  claim_C6_identity_extrinsics constQvec isOutput_idR

/-- C7: on any valid rotation matrix, every possible return of
`rotmat2qvec` has nonnegative leading (scalar) component and unit Euclidean
norm: the eigensolver returns a normalised eigenvector, and the final
negation fires exactly when the leading component is strictly negative,
yielding the canonical-sign representative. -/
theorem claim_C7_canonical_unit (R : Matrix (Fin 3) (Fin 3) ℝ)
    (q : Fin 4 → ℝ) (hR : Rᵀ * R = 1) (hdet : R.det = 1)
    (hout : IsRotmat2qvecOutput R q) :
    0 ≤ q 0 ∧ q 0 ^ 2 + q 1 ^ 2 + q 2 ^ 2 + q 3 ^ 2 = 1 := by
  obtain ⟨hu, hnn⟩ := output_unit_nonneg R q hout
  exact ⟨hnn, hu⟩

/-- C7, witness: instantiated at the identity rotation and its canonical
output `![1, 0, 0, 0]`. -/
theorem claim_C7_canonical_unit_witness :
    (0 : ℝ) ≤ (![1, 0, 0, 0] : Fin 4 → ℝ) 0 ∧
    (![1, 0, 0, 0] : Fin 4 → ℝ) 0 ^ 2 + (![1, 0, 0, 0] : Fin 4 → ℝ) 1 ^ 2 +
      (![1, 0, 0, 0] : Fin 4 → ℝ) 2 ^ 2 + (![1, 0, 0, 0] : Fin 4 → ℝ) 3 ^ 2
      = 1 := by
  have hR : idRᵀ * idR = 1 := by
    rw [Matrix.one_fin_three]
    ext i j
    rw [Matrix.mul_apply]
    simp only [Matrix.transpose_apply, Fin.sum_univ_three]
    fin_cases i <;> fin_cases j <;>
      norm_num [idR, Matrix.vecHead, Matrix.vecTail]
  have hdet : idR.det = 1 := by
    norm_num [idR, Matrix.det_fin_three, Matrix.vecHead, Matrix.vecTail]
  exact claim_C7_canonical_unit idR ![1, 0, 0, 0] hR hdet isOutput_idR

/-- C8: for every registered model name other than `OPENCV` and `PINHOLE`,
`read_intrinsics_json` succeeds on any document whose camera elements all
carry the `FovVideo` bounds, and every returned `Camera` has the empty
placeholder parameter sequence while its `model` field is the registry id of
the requested name. -/
theorem claim_C8_other_models_placeholder (t : String) (cm : CameraModel)
    (doc : JVal) (elems : List JVal)
    (hcm : CAMERA_MODEL_NAMES t = some cm)
    (hto : t ≠ "OPENCV") (htp : t ≠ "PINHOLE")
    (hcams : getField doc "Cameras" = .ok (.arr elems))
    (hwf : ∀ j (h : j < elems.length), ∃ w hgt,
      getField2 elems[j] "FovVideo" "Right" = .ok w ∧
      getField2 elems[j] "FovVideo" "Bottom" = .ok hgt) :
    ∃ m, read_intrinsics_json (some doc) t = .ok m ∧
      ∀ p ∈ m, p.2.params = [] ∧ p.2.model = cm.model_id := by
  obtain ⟨l, hl⟩ := enumerateFrom_all_ok (readIntrinsicsCam t cm.model_id)
    elems 1 (fun j hj => by
      obtain ⟨w, hgt, hw, hh⟩ := hwf j hj
      exact ⟨_, readIntrinsicsCam_other_ok hto htp hw hh⟩)
  refine ⟨l, ?_, ?_⟩
  · simp [read_intrinsics_json, hcm, hcams, Except.bind, Bind.bind, hl]
  · intro p hp
    obtain ⟨_, hmemf⟩ := enumerateFrom_ok _ elems 1 l hl
    obtain ⟨_, cam, _, hok⟩ := hmemf p hp
    obtain ⟨w, hgt, _, _, hc⟩ := readIntrinsicsCam_other_inv hto htp hok
    rw [hc]
    exact ⟨rfl, rfl⟩

/-- C8, witness: the sample document parsed with the registered `RADIAL`
model succeeds, with empty parameters and model id 3. -/
theorem claim_C8_other_models_placeholder_witness :
    read_intrinsics_json (some sampleDoc) "RADIAL" =
      .ok [(1, ⟨1, 3, .num 1920, .num 1080, []⟩)] ∧
    (⟨1, 3, JVal.num 1920, JVal.num 1080, []⟩ : Camera).params = [] ∧
    (⟨1, 3, JVal.num 1920, JVal.num 1080, []⟩ : Camera).model = 3 := by
  obtain ⟨m, hm, hprops⟩ := claim_C8_other_models_placeholder "RADIAL"
    ⟨3, "RADIAL", 5⟩ sampleDoc [sampleCam] rfl (by decide) (by decide) rfl
    (fun j hj => by
      simp only [List.length_cons, List.length_nil] at hj
      interval_cases j
      exact ⟨.num 1920, .num 1080, rfl, rfl⟩)
  have hexact : read_intrinsics_json (some sampleDoc) "RADIAL" =
      .ok [(1, ⟨1, 3, .num 1920, .num 1080, []⟩)] := rfl
  have hmm : m = [(1, ⟨1, 3, .num 1920, .num 1080, []⟩)] := by
    have := hm.symm.trans hexact
    simpa using this
  have hp := hprops (1, ⟨1, 3, .num 1920, .num 1080, []⟩) (by rw [hmm]; simp)
  exact ⟨hexact, hp.1, hp.2⟩

/-- C9 (implicit): `read_intrinsics_json` defaults its model type to
`OPENCV`: calling it without the argument gives exactly the call with
`"OPENCV"`; the registry maps `OPENCV` to model id 4 with 8 parameters, and
every camera of a successful default run carries model id 4 and exactly 8
ordered parameters. -/
theorem claim_C9_default_opencv :
    (∀ file, read_intrinsics_json_default file =
      read_intrinsics_json file "OPENCV") ∧
    CAMERA_MODEL_NAMES "OPENCV" = some ⟨4, "OPENCV", 8⟩ ∧
    ∀ (doc : JVal) (m : List (ℕ × Camera)),
      read_intrinsics_json (some doc) "OPENCV" = .ok m →
      ∀ p ∈ m, p.2.model = 4 ∧ p.2.params.length = 8 := by
  refine ⟨fun _ => rfl, rfl, ?_⟩
  intro doc m h p hp
  obtain ⟨cm, elems, hcm, hcams, henum⟩ := read_intrinsics_ok_inv h
  have hcm4 : cm = ⟨4, "OPENCV", 8⟩ := by
    have : (some ⟨4, "OPENCV", 8⟩ : Option CameraModel) = some cm :=
      (rfl : CAMERA_MODEL_NAMES "OPENCV" = some ⟨4, "OPENCV", 8⟩).symm.trans
        hcm
    simpa using this.symm
  subst hcm4
  obtain ⟨_, hmemf⟩ := enumerateFrom_ok _ elems 1 m henum
  obtain ⟨_, cam, _, hok⟩ := hmemf p hp
  obtain ⟨w, hgt, q1, q2, q3, q4, q5, q6, q7, q8, _, _, _, _, _, _, _, _,
    _, _, hc⟩ := readIntrinsicsCam_opencv_inv hok
  constructor
  · exact (readIntrinsicsCam_id hok).2
  · rw [hc]
    rfl

/-- C9, witness: the default call on the sample document agrees with the
explicit `OPENCV` call, whose camera has model id 4 and 8 parameters. -/
theorem claim_C9_default_opencv_witness :
    read_intrinsics_json_default (some sampleDoc) =
      read_intrinsics_json (some sampleDoc) "OPENCV" ∧
    sampleCamParsed.model = 4 ∧ sampleCamParsed.params.length = 8 := by
  have h := claim_C9_default_opencv.2.2 sampleDoc [(1, sampleCamParsed)] rfl
    (1, sampleCamParsed) (by simp)
  exact ⟨claim_C9_default_opencv.1 (some sampleDoc), h.1, h.2⟩

/-- C10 (implicit): `qvec2rotmat` is invariant under quaternion negation —
for every 4-vector `q`, unit or not, `qvec2rotmat (-q)` equals
`qvec2rotmat q` exactly, since every non-constant monomial of every entry
has degree two in the components; so the two quaternion representatives of a
rotation map to the identical matrix. -/
theorem claim_C10_negation_invariant (q : Fin 4 → ℝ) :
    qvec2rotmat (-q) = qvec2rotmat q :=
  qvec2rotmat_neg q

end Qualisys
